import Mathlib

/-!
# Verification of the Read_HDF5 ingest/query pipeline

A shallow embedding of `packages/compilers/compile_edx.py` and
`packages/readers/read_hdf5.py`.  Python strings are modelled as `List Char`,
Python dicts as insertion-ordered association lists, HDF5 groups/datasets as a
tree with string attributes, and float arithmetic as exact rationals.
Fallible operations (KeyError, TypeError, unpacking errors, h5py name
collisions) are modelled with `Option`.
-/

set_option maxHeartbeats 4000000
set_option maxRecDepth 100000

namespace ReadHdf5

/-- Python strings, modelled character by character. -/
abbrev Str := List Char

/-! ## Python dict / attribute primitives (insertion-ordered association lists) -/

/-- `d[k]` as a total lookup: first entry with the given key. -/
def dictGet {α : Type} (d : List (Str × α)) (k : Str) : Option α :=
  match d with
  | [] => none
  | p :: rest => if p.1 = k then some p.2 else dictGet rest k

/-- `k in d`. -/
def dictHasKey {α : Type} (d : List (Str × α)) (k : Str) : Bool :=
  match d with
  | [] => false
  | p :: rest => p.1 = k || dictHasKey rest k

/-- `d[k] = v` with Python-dict semantics: replace in place if present,
append otherwise. -/
def dictInsert {α : Type} (d : List (Str × α)) (k : Str) (v : α) : List (Str × α) :=
  if dictHasKey d k then d.map (fun p => if p.1 = k then (k, v) else p)
  else d ++ [(k, v)]

/-- `del d[k]` (all occurrences; keys are unique in every reachable state). -/
def dictDelAll {α : Type} (d : List (Str × α)) (k : Str) : List (Str × α) :=
  d.filter (fun p => !(p.1 = k : Bool))

/-- `del d[k]`, raising (`none`) when the key is absent. -/
def dictDel {α : Type} (d : List (Str × α)) (k : Str) : Option (List (Str × α)) :=
  if dictHasKey d k then some (dictDelAll d k) else none

/-- h5py-style creation: fails when the name already exists. -/
def dictCreate {α : Type} (d : List (Str × α)) (k : Str) (v : α) : Option (List (Str × α)) :=
  if dictHasKey d k then none else some (d ++ [(k, v)])

/-! ## String scanning primitives (models of Python `str` operations) -/

/-- `s.startswith(pat)` / list-prefix test. -/
def listStartsWith : Str → Str → Bool
  | [], _ => true
  | _ :: _, [] => false
  | a :: as, b :: bs => a == b && listStartsWith as bs

/-- `pat in s` (substring containment). -/
def containsSeq (pat : Str) : Str → Bool
  | [] => listStartsWith pat []
  | c :: rest => listStartsWith pat (c :: rest) || containsSeq pat rest

/-- `s.split(c)[0]` for a single-character separator. -/
def beforeFirstChar (sep : Char) (s : Str) : Str :=
  s.takeWhile (fun a => !(a == sep))

/-- `s.split(c)[-1]` for a single-character separator. -/
def afterLastChar (sep : Char) (s : Str) : Str :=
  ((s.reverse).takeWhile (fun a => !(a == sep))).reverse

/-- `s.split(sep)[0]` for a multi-character separator: the text before the
first occurrence, or all of `s` when there is none. -/
def beforeFirstSeq (sep : Str) : Str → Str
  | [] => []
  | c :: rest => if listStartsWith sep (c :: rest) then [] else c :: beforeFirstSeq sep rest

/-- `s.split(c)` for a single-character separator. -/
def splitChar (sep : Char) : Str → List Str
  | [] => [[]]
  | c :: rest =>
    if c == sep then [] :: splitChar sep rest
    else
      match splitChar sep rest with
      | [] => [[c]]
      | h :: t => (c :: h) :: t

/-- Scanner for `s.replace(pat, repl)`: while `skip > 0` the characters
still belonging to the last matched occurrence are dropped. -/
def replaceGo (pat repl : Str) : Nat → Str → Str
  | _, [] => []
  | 0, c :: rest =>
    if !pat.isEmpty && listStartsWith pat (c :: rest) then
      repl ++ replaceGo pat repl (pat.length - 1) rest
    else c :: replaceGo pat repl 0 rest
  | n + 1, _ :: rest => replaceGo pat repl n rest

/-- `s.replace(pat, repl)` (all non-overlapping occurrences, left to right). -/
def pyReplaceSeq (pat repl : Str) (s : Str) : Str := replaceGo pat repl 0 s

/-- `s.strip()` restricted to the space character (sufficient for the data
handled here). -/
def pyStrip (s : Str) : Str :=
  ((s.dropWhile (fun c => c == ' ')).reverse.dropWhile (fun c => c == ' ')).reverse

/-- `s.lower()`. -/
def pyLower (s : Str) : Str := s.map Char.toLower

/-- Decimal digit test used by the numeric models. -/
def isDigitCh (c : Char) : Bool := Nat.ble 48 c.toNat && Nat.ble c.toNat 57

/-- Numeric value of a most-significant-first digit string. -/
def digitsToNat (s : Str) : Nat :=
  s.foldl (fun a c => a * 10 + (c.toNat - 48)) 0

/-- Model of Python `int(s)` on the inputs reachable here: an optional sign
followed by at least one decimal digit. -/
def pyInt (s : Str) : Option Int :=
  if s.isEmpty then none
  else if s.headD ' ' == '-' then
    if !s.tail.isEmpty && s.tail.all isDigitCh then some (-(digitsToNat s.tail : Int))
    else none
  else if s.all isDigitCh then some ((digitsToNat s : Int))
  else none

/-- Unsigned part of Python `float(s)`: digits with an optional decimal point
(`"1"`, `"1.5"`, `"1."`, `".5"`), valued as an exact rational. -/
def parseUFloat (s : Str) : Option ℚ :=
  match splitChar '.' s with
  | [ip] => if !ip.isEmpty && ip.all isDigitCh then some ((digitsToNat ip : ℚ)) else none
  | [ip, fp] =>
    if (!ip.isEmpty || !fp.isEmpty) && ip.all isDigitCh && fp.all isDigitCh then
      some ((digitsToNat ip : ℚ) + (digitsToNat fp : ℚ) / (10 : ℚ) ^ fp.length)
    else none
  | _ => none

/-- Model of Python `float(s)` on the decimal forms reachable here. -/
def parseFloat (s : Str) : Option ℚ :=
  match s with
  | '-' :: rest => (parseUFloat rest).map Neg.neg
  | '+' :: rest => parseUFloat rest
  | _ => parseUFloat s

/-! ## `get_scan_numbers` (compile_edx.py, lines 106-126) -/

/-- `get_scan_numbers(filepath)` for a string argument:
`filename = filepath.split("/")[-1]`, then
`filename.split(".spx")[0].split("(")[-1].split(")")[0].split(",")` unpacked
into two values and converted with `int`; any failure (wrong arity, bad
digits) raises, modelled as `none`. -/
def get_scan_numbers (filepath : Str) : Option (Int × Int) :=
  match splitChar ','
      (beforeFirstChar ')'
        (afterLastChar '('
          (beforeFirstSeq (".spx".toList) (afterLastChar '/' filepath)))) with
  | [xs, ys] =>
    match pyInt xs, pyInt ys with
    | some x, some y => some (x, y)
    | _, _ => none
  | _ => none

/-- The canonical decimal numeral of a natural number (most significant digit
first), used to state the filename-embedding convention. -/
def natDecimal (n : Nat) : Str :=
  ((Nat.digits 10 n).map (fun d => Char.ofNat (48 + d))).reverse

/-- The canonical filename pattern `<stem>(<x>,<y>).spx` from the claim. -/
def spxFilename (stem : Str) (x y : Nat) : Str :=
  stem ++ '(' :: (natDecimal x ++ ',' :: (natDecimal y ++ ')' :: ".spx".toList))

/-! ## XML model and `visit_items` (compile_edx.py, lines 17-65) -/

/-- An `xml.etree.ElementTree.Element`: tag, attributes, text, children. -/
inductive Xml where
  | node (tag : Str) (attrib : List (Str × Str)) (text : Option Str) (children : List Xml)

def Xml.tag : Xml → Str
  | .node t _ _ _ => t

def Xml.attrib : Xml → List (Str × Str)
  | .node _ a _ _ => a

def Xml.text : Xml → Option Str
  | .node _ _ s _ => s

def Xml.children : Xml → List Xml
  | .node _ _ _ c => c

mutual
/-- `item.iter()`: the node and all its descendants in document order. -/
def Xml.preorder : Xml → List Xml
  | .node t a s cs => .node t a s cs :: Xml.preorderList cs

def Xml.preorderList : List Xml → List Xml
  | [] => []
  | x :: xs => Xml.preorder x ++ Xml.preorderList xs
end

/-- The `parse_ignore` list of `visit_items`. -/
def parse_ignore : List Str :=
  [[], "DetLayers".toList, "ShiftData".toList, "PPRTData".toList,
    "ResponseFunction".toList, "Channels".toList, "WindowLayers".toList]

/-- `child.tag in parse_ignore`. -/
def ignoredTag (t : Str) : Bool := parse_ignore.contains t

/-- A Python value inside the normalized tree: a scalar (`Element.text`,
possibly `None`) or a nested dict. -/
inductive PyVal where
  | s (t : Option Str)
  | d (m : List (Str × PyVal))

/-- The normalized tree built by `visit_items`. -/
abbrev Dict := List (Str × PyVal)

/-- The texts of all `Atom` descendants of a node, in document order
(the loop `for child in item.iter(): if child.tag == "Atom"`). -/
def atomTexts (x : Xml) : List (Option Str) :=
  ((Xml.preorder x).filter (fun c => decide (c.tag = "Atom".toList))).map Xml.text

/-- The disambiguated key of a node (`parent_name` in `visit_items`).
`none` models the failure paths of the source: a `ClassInstance` without a
`Type`/`Name` attribute (KeyError), a `Result`/`ExtResults` node without an
`Atom` descendant (`parent_name` never assigned, NameError), or an `Atom`
with `None` text (TypeError in the string concatenation). -/
def parentName (x : Xml) : Option Str :=
  if x.tag = "ClassInstance".toList then
    match dictGet x.attrib ("Type".toList) with
    | none => none
    | some ty =>
      if ty = "TRTPSEElement".toList then
        match dictGet x.attrib ("Name".toList) with
        | none => none
        | some nm => some (ty ++ ' ' :: nm)
      else some ty
  else if x.tag = "Result".toList ∨ x.tag = "ExtResults".toList then
    match (atomTexts x).getLast? with
    | none => none
    | some t? =>
      if (atomTexts x).all (fun t => t.isSome) then t?.map (fun t => x.tag ++ ' ' :: t)
      else none
  else some x.tag

mutual
/-- `visit_items(item, edx_dict)`: insert `{parent_name: {}}` into the
accumulator, then walk the children: ignored tags are skipped, childless
children write their text under `edx_dict[parent_name]`, other children are
recursed into with the same accumulator. -/
def visit_items : Xml → Dict → Option Dict
  | Xml.node t a s cs, acc =>
    match parentName (Xml.node t a s cs) with
    | none => none
    | some pname => visitChildren pname cs (dictInsert acc pname (PyVal.d []))

/-- The `for child in item:` loop of `visit_items`. -/
def visitChildren (pname : Str) (cs : List Xml) (acc : Dict) : Option Dict :=
  match cs with
  | [] => some acc
  | c :: rest =>
    if ignoredTag c.tag then visitChildren pname rest acc
    else if c.children.isEmpty then
      match dictGet acc pname with
      | some (PyVal.d m) =>
        visitChildren pname rest
          (dictInsert acc pname (PyVal.d (dictInsert m c.tag (PyVal.s c.text))))
      | _ => none
    else
      match visit_items c acc with
      | none => none
      | some acc2 => visitChildren pname rest acc2
end

/-- A call `visit_items(item)` that uses the shared mutable default
`edx_dict={}`: `shared` holds the current contents of the default dict, and
the call returns both its result and the new contents of the default dict
(they are the same object in the source). -/
def visit_items_default (shared : Dict) (x : Xml) : Option (Dict × Dict) :=
  match visit_items x shared with
  | none => none
  | some r => some (r, r)

mutual
/-- The set of top-level keys that a `visit_items` call can write. -/
def touchedNames : Xml → List Str
  | Xml.node t a s cs => (parentName (Xml.node t a s cs)).toList ++ touchedNamesList cs

def touchedNamesList : List Xml → List Str
  | [] => []
  | c :: cs =>
    (if ignoredTag c.tag || c.children.isEmpty then [] else touchedNames c) ++
      touchedNamesList cs
end

/-- One step of the leaf-collection fold: what a single child contributes to
`edx_dict[parent_name]`. -/
def leafStep (m : Dict) (c : Xml) : Dict :=
  if ignoredTag c.tag then m
  else if c.children.isEmpty then dictInsert m c.tag (PyVal.s c.text)
  else m

/-- The contents of `edx_dict[parent_name]` contributed by a child list. -/
def leafFold (m : Dict) (cs : List Xml) : Dict := cs.foldl leafStep m

/-- The tags of the non-ignored childless children. -/
def leafTags (cs : List Xml) : List Str :=
  (cs.filter (fun c => !ignoredTag c.tag && c.children.isEmpty)).map Xml.tag

/-- The non-ignored children of a node. -/
def nonIgnoredChildren (x : Xml) : List Xml :=
  x.children.filter (fun c => !ignoredTag c.tag)

/-- The non-ignored children that have children of their own. -/
def nonLeafChildren (x : Xml) : List Xml :=
  x.children.filter (fun c => !ignoredTag c.tag && !c.children.isEmpty)

/-- Number of entries of the sub-dict stored under `k` (0 when absent or when
the value is a scalar). -/
def innerCount (d : Dict) (k : Str) : Nat :=
  match dictGet d k with
  | some (PyVal.d m) => m.length
  | _ => 0

/-- Concrete XML nodes for the counterexamples. -/
def xmlNodeA : Xml := Xml.node ("A".toList) [] none []

def xmlNodeB : Xml := Xml.node ("B".toList) [] none []

def xmlLeafB : Xml := Xml.node ("B".toList) [] (some ("b".toList)) []

def xmlLeafD : Xml := Xml.node ("D".toList) [] (some ("d".toList)) []

def xmlNodeC : Xml := Xml.node ("C".toList) [] none [xmlLeafD]

def xmlNodeTop : Xml := Xml.node ("A".toList) [] none [xmlLeafB, xmlNodeC]

/-! ## HDF5 store model -/

/-- A scalar HDF5 dataset value: an exact number (model of Python floats and
ints), raw text (Python strings / bytes), or the not-a-number sentinel. -/
inductive Scalar where
  | num (q : ℚ)
  | raw (t : Option Str)
  | nan

/-- An HDF5 object: a dataset or a group, each with string attributes. -/
inductive H5 where
  | ds (val : Scalar) (attrs : List (Str × Str))
  | grp (entries : List (Str × H5)) (attrs : List (Str × Str))

/-- Named members of a group. -/
abbrev Entries := List (Str × H5)

def H5.attrsOf : H5 → List (Str × Str)
  | .ds _ a => a
  | .grp _ a => a

/-- `obj.attrs[k]`, `none` models a KeyError on read. -/
def attrGet (h : H5) (k : Str) : Option Str := dictGet h.attrsOf k

/-- `group[name]` restricted to subgroups. -/
def grpGet (h : H5) (k : Str) : Option H5 :=
  match h with
  | H5.grp es _ => dictGet es k
  | _ => none

/-- The value of a dataset. -/
def dsVal : H5 → Option Scalar
  | H5.ds v _ => some v
  | _ => none

/-- `group.create_dataset(k, data=v)`: fails if the name exists. -/
def createDS (es : Entries) (k : Str) (v : Scalar) : Option Entries :=
  dictCreate es k (H5.ds v [])

/-- `group.create_group(k)`: fails if the name exists. -/
def createGrp (es : Entries) (k : Str) : Option Entries :=
  dictCreate es k (H5.grp [] [])

/-- `group[k].attrs[a] = v` for a dataset member. -/
def setDSAttr (es : Entries) (k a v : Str) : Option Entries :=
  match dictGet es k with
  | some (H5.ds val attrs) => some (dictInsert es k (H5.ds val (dictInsert attrs a v)))
  | _ => none

/-- Replace the entries of subgroup `k`, keeping its attributes. -/
def setGrpEntries (es : Entries) (k : Str) (sub : Entries) : Option Entries :=
  match dictGet es k with
  | some (H5.grp _ attrs) => some (dictInsert es k (H5.grp sub attrs))
  | _ => none

/-! ## External helpers of the ingest path -/

/-- Modelled from the spec: `convertFloat`, imported from
`packages.compilers.compile_hdf5` which is not among the sources.  Best-effort
numeric coercion: a value whose textual form parses as a float becomes a
number, anything else is left as raw text. -/
def convertFloat (t : Option Str) : Scalar :=
  match t with
  | some s =>
    match parseFloat s with
    | some q => Scalar.num q
    | none => Scalar.raw (some s)
  | none => Scalar.raw none

mutual
/-- Modelled from the spec: `get_all_keys`, imported from
`packages.compilers.compile_hdf5` which is not among the sources.  Yields
every `(key, value)` pair of the tree in depth-first pre-order, walking all
nested mappings, not just the top level. -/
def get_all_keys : Dict → List (Str × PyVal)
  | [] => []
  | (k, v) :: rest => (k, v) :: (getAllKeysVal v ++ get_all_keys rest)

/-- The nested part of `get_all_keys`: the pairs below one value. -/
def getAllKeysVal : PyVal → List (Str × PyVal)
  | PyVal.s _ => []
  | PyVal.d m => get_all_keys m
end

/-! ## `get_units` (compile_edx.py, lines 149-164) -/

def dict_units : List (Str × Str) :=
  [("PrimaryEnergy".toList, "keV".toList),
   ("WorkingDistance".toList, "mm".toList),
   ("CalibAbs".toList, "keV".toList),
   ("CalibLin".toList, "keV".toList),
   ("DetectorTemperature".toList, "°C".toList),
   ("DetectorThickness".toList, "mm".toList),
   ("SiDeadLayerThickness".toList, "mm".toList),
   ("AtomPercent".toList, "at.%".toList),
   ("MassPercent".toList, "mass.%".toList)]

/-- `get_units(key)`: table lookup, `None` for unknown keys. -/
def get_units (key : Str) : Option Str := dictGet dict_units key

/-! ## `set_instrument_and_result_from_dict` (compile_edx.py, lines 167-208) -/

/-- `convertFloat(subvalue) * 100`; multiplying the raw-text fallback by an
int would be Python string repetition, which never happens for the numeric
percent fields — modelled as failure. -/
def scalarTimes100 : Scalar → Option Scalar
  | Scalar.num q => some (Scalar.num (q * 100))
  | _ => none

/-- The body of the inner `for subkey, subvalue in get_all_keys(value)` loop
(lines 200-208): skip `None`, store the coerced value (scaled ×100 for the
percent fields), then attach the unit attribute when `get_units` knows one. -/
def writeLeaf (g : Entries) (subkey : Str) (subvalue : PyVal) : Option Entries :=
  match subvalue with
  | PyVal.s none => some g
  | PyVal.d _ => none
  | PyVal.s (some tx) =>
    match (if subkey = "AtomPercent".toList ∨ subkey = "MassPercent".toList then
            scalarTimes100 (convertFloat (some tx))
          else some (convertFloat (some tx))) with
    | none => none
    | some stored =>
      match createDS g subkey stored with
      | none => none
      | some g1 =>
        match get_units subkey with
        | some u => setDSAttr g1 subkey ("units".toList) u
        | none => some g1

/-- The two mutable groups handled by the store writer. -/
structure WState where
  instrument : Entries
  result : Entries

/-- Where the inner loop writes: a subgroup of `instrument_group` or of
`result_group` (the source's `instrument_subgroup` variable). -/
inductive Target where
  | inInstrument (name : Str)
  | inResult (name : Str)

/-- Python f-string interpolation of a dict value. -/
def fstrOf : PyVal → Option Str
  | PyVal.s (some s) => some s
  | PyVal.s none => some ("None".toList)
  | PyVal.d _ => none

/-- The four-way dispatch of the outer loop (lines 182-198): decides the
destination subgroup and performs the associated group mutations. -/
def dispatch (st : WState) (key : Str) (m : Dict) : Option (WState × Target) :=
  if listStartsWith ("Result".toList) key || decide (key = "TRTResult".toList) then
    match createGrp st.result key with
    | none => none
    | some r => some ({ st with result := r }, Target.inResult key)
  else if listStartsWith ("ExtResults".toList) key then
    match dictGet m ("Atom".toList) with
    | none => none
    | some av =>
      match fstrOf av with
      | none => none
      | some atom =>
        match dictGet st.result ("Result ".toList ++ atom) with
        | some (H5.grp g gattrs) =>
          match dictDel g ("Atom".toList) with
          | none => none
          | some g2 =>
            let r := dictInsert st.result ("Result ".toList ++ atom) (H5.grp g2 gattrs)
            some ({ st with result := r }, Target.inResult ("Result ".toList ++ atom))
        | _ => none
  else if listStartsWith ("TRTPSEElement".toList) key then
    match dictGet m ("Element".toList) with
    | none => none
    | some ev =>
      match fstrOf ev with
      | none => none
      | some sym =>
        match dictGet st.result ("Result ".toList ++ sym) with
        | none => none
        | some tmp =>
          match dictCreate st.result
              ("Element ".toList ++ pyReplaceSeq ("TRTPSEElement ".toList) [] key) tmp with
          | none => none
          | some r1 =>
            match dictDel r1 ("Result ".toList ++ sym) with
            | none => none
            | some r2 =>
              match dictGet r2
                  ("Element ".toList ++ pyReplaceSeq ("TRTPSEElement ".toList) [] key) with
              | some (H5.grp g gattrs) =>
                match dictDel g ("Atom".toList) with
                | none => none
                | some g2 =>
                  let nm := "Element ".toList ++ pyReplaceSeq ("TRTPSEElement ".toList) [] key
                  let r := dictInsert r2 nm (H5.grp g2 gattrs)
                  some ({ st with result := r }, Target.inResult nm)
              | _ => none
  else
    match createGrp st.instrument (pyReplaceSeq ("TRT".toList) [] key) with
    | none => none
    | some i =>
      some ({ st with instrument := i },
        Target.inInstrument (pyReplaceSeq ("TRT".toList) [] key))

/-- Read the entries of the current `instrument_subgroup`. -/
def getTargetEntries (st : WState) : Target → Option Entries
  | Target.inInstrument n =>
    match dictGet st.instrument n with
    | some (H5.grp es _) => some es
    | _ => none
  | Target.inResult n =>
    match dictGet st.result n with
    | some (H5.grp es _) => some es
    | _ => none

/-- Write back the entries of the current `instrument_subgroup`. -/
def setTargetEntries (st : WState) (t : Target) (es : Entries) : Option WState :=
  match t with
  | Target.inInstrument n =>
    match setGrpEntries st.instrument n es with
    | none => none
    | some i => some { st with instrument := i }
  | Target.inResult n =>
    match setGrpEntries st.result n es with
    | none => none
    | some r => some { st with result := r }

/-- The body of the outer `for key, value in get_all_keys(edx_dict)` loop:
non-dict values are skipped, empty dicts are skipped, otherwise dispatch and
then write every leaf of the sub-dict into the chosen subgroup. -/
def processPair (st : WState) (kv : Str × PyVal) : Option WState :=
  match kv.2 with
  | PyVal.s _ => some st
  | PyVal.d m =>
    if m.isEmpty then some st
    else
      match dispatch st kv.1 m with
      | none => none
      | some (st1, tgt) =>
        match getTargetEntries st1 tgt with
        | none => none
        | some g =>
          match (get_all_keys m).foldlM (fun acc p => writeLeaf acc p.1 p.2) g with
          | none => none
          | some g2 => setTargetEntries st1 tgt g2

/-- `set_instrument_and_result_from_dict(edx_dict, instrument_group,
result_group)`. -/
def set_instrument_and_result_from_dict (edx : Dict) (st : WState) : Option WState :=
  (get_all_keys edx).foldlM processPair st

/-! ## `make_energy_dataset` (compile_edx.py, lines 211-234) -/

/-- `make_energy_dataset(edx_dict, channels)`: read `CalibAbs` and `CalibLin`
from `edx_dict["TRTSpectrumHeader"]` and build
`[(i+1)*calibLin + calibAbs for i in range(len(channels)//2)]`.  Missing keys
(KeyError) and non-numeric headers are modelled as `none`. -/
def make_energy_dataset (edx : Dict) (channels : List Int) : Option (List ℚ) :=
  match dictGet edx ("TRTSpectrumHeader".toList) with
  | some (PyVal.d hdr) =>
    match dictGet hdr ("CalibAbs".toList) with
    | some (PyVal.s ta) =>
      match convertFloat ta with
      | Scalar.num zero_energy =>
        match dictGet hdr ("CalibLin".toList) with
        | some (PyVal.s tl) =>
          match convertFloat tl with
          | Scalar.num energy_step =>
            some ((List.range (channels.length / 2)).map
              (fun i : ℕ => ((i : ℚ) + 1) * energy_step + zero_energy))
          | _ => none
        | _ => none
      | _ => none
    | _ => none
  | _ => none

/-- Concrete normalized tree for the C5 scenario. -/
def exC5hdr : Dict :=
  [("CalibAbs".toList, PyVal.s (some ("0.0".toList))),
   ("CalibLin".toList, PyVal.s (some ("2.0".toList)))]

def exC5edx : Dict := [("TRTSpectrumHeader".toList, PyVal.d exC5hdr)]

/-- Concrete normalized tree for the C6 end-to-end scenario. -/
def exC6edx : Dict :=
  [("Result Fe".toList,
    PyVal.d [("AtomPercent".toList, PyVal.s (some ("0.42".toList)))])]

/-! ## `create_simplified_dataset` (read_hdf5.py, lines 537-731) -/

/-- The single-quote character, used by Python `str()` on bytes values. -/
def squote : Char := Char.ofNat 39

/-- `str(value)` for an h5py scalar read: a bytes value `b"s"` prints as
`b's'`; numeric reads never flow into the XRD string slicing in practice and
are left unmodelled (`none`). -/
def pyStrOfVal : Scalar → Option Str
  | Scalar.raw (some s) => some ('b' :: squote :: (s ++ [squote]))
  | _ => none

/-- Decimal numeral writer with structural fuel. -/
def natDecimalAux (fuel n : Nat) : Str :=
  match fuel with
  | 0 => []
  | fuel + 1 => if n = 0 then [] else natDecimalAux fuel (n / 10) ++ [Char.ofNat (48 + n % 10)]

/-- `"{:.1f}".format(float(i))` for an integer `i`, without the `.0` tail. -/
def intDecimal (i : Int) : Str :=
  if i < 0 then '-' :: (if i.natAbs = 0 then ['0'] else natDecimalAux i.natAbs i.natAbs)
  else if i.natAbs = 0 then ['0'] else natDecimalAux i.natAbs i.natAbs

/-- The coordinate key `"({x:.1f},{y:.1f})"` of the compaction grid. -/
def coordStr (x y : Int) : Str :=
  '(' :: (intDecimal x ++ (".0,".toList ++ (intDecimal y ++ ".0)".toList)))

/-- `range(-40, 45, 5)`. -/
def coordInts : List Int := (List.range 17).map (fun i => -40 + 5 * (i : Int))

/-- The `coord_list` comprehension (x-major). -/
def coord_list : List Str :=
  coordInts.flatMap (fun x => coordInts.map (fun y => coordStr x y))

/-- `group_list = ["edx", "moke", "xrd"]`. -/
def group_list : List Str := ["edx".toList, "moke".toList, "xrd".toList]

/-- `saving_result_list = ["A", "B", "C", "phase_fraction"]`. -/
def saving_result_list : List Str :=
  ["A".toList, "B".toList, "C".toList, "phase_fraction".toList]

/-- Missing-coordinate fill for EDX (lines 588-594): one NaN dataset per
`Element *` key of the reference results, with hardcoded unit `at.%`. -/
def nanFillEDX (dt : Str) (refR node : Entries) : Option Entries :=
  refR.foldlM (fun node p =>
    if containsSeq ("Element".toList) p.1 then
      match createDS node (afterLastChar ' ' p.1) Scalar.nan with
      | none => none
      | some n1 =>
        match setDSAttr n1 (afterLastChar ' ' p.1) ("units".toList) ("at.%".toList) with
        | none => none
        | some n2 => setDSAttr n2 (afterLastChar ' ' p.1) ("HT_type".toList) dt
    else some node) node

/-- Missing-coordinate fill for MOKE (lines 596-607): a NaN `coercivity_m0`
with hardcoded unit `Tesla (T)`; `max_kerr_rotation` is skipped. -/
def nanFillMOKE (dt : Str) (refR node : Entries) : Option Entries :=
  refR.foldlM (fun node p =>
    if p.1 = "coercivity_m0".toList then
      match createDS node p.1 Scalar.nan with
      | none => none
      | some n1 =>
        match setDSAttr n1 p.1 ("units".toList) ("Tesla (T)".toList) with
        | none => none
        | some n2 => setDSAttr n2 p.1 ("HT_type".toList) dt
    else some node) node

/-- Missing-coordinate fill for XRD (lines 610-618): one NaN dataset per
reference phase and lattice key, with no attributes at all. -/
def nanFillXRD (refR node : Entries) : Option Entries :=
  match dictGet refR ("phases".toList) with
  | some (H5.grp phases _) =>
    phases.foldlM (fun node p =>
      match p.2 with
      | H5.grp pE _ =>
        saving_result_list.foldlM (fun node rk =>
          if dictHasKey pE rk then createDS node (p.1 ++ '_' :: rk) Scalar.nan
          else some node) node
      | _ => none) node
  | _ => none

/-- The `except KeyError` fallback of the present-EDX path (lines 636-656). -/
def edxFallback (gEnt : Entries) (dt : Str) (key nm : Str) (node : Entries) :
    Option Entries :=
  match (match dictGet gEnt ("(0.0,0.0)".toList) with
         | some (H5.grp zE _) => dictGet zE ("results".toList)
         | _ => none) with
  | some (H5.grp refR _) =>
    match dictGet refR key with
    | some (H5.grp refG _) =>
      if dictHasKey refG ("AtomPercent".toList) then
        match createDS node nm Scalar.nan with
        | none => none
        | some n1 =>
          match (match dictGet refG ("AtomPercent".toList) with
                 | some h => attrGet h ("units".toList)
                 | none => none) with
          | none => none
          | some u =>
            match setDSAttr n1 nm ("units".toList) u with
            | none => none
            | some n2 => setDSAttr n2 nm ("HT_type".toList) dt
      else some node
    | some (H5.ds _ _) => none
    | none => some node
  | _ => none

/-- Present-coordinate path for EDX (lines 622-656). -/
def presentEDX (gEnt : Entries) (dt : Str) (coordE node : Entries) : Option Entries :=
  match dictGet coordE ("results".toList) with
  | some (H5.grp results _) =>
    results.foldlM (fun node p =>
      if containsSeq ("Element".toList) p.1 then
        match dictGet results p.1 with
        | some (H5.grp ge _) =>
          match dictGet ge ("AtomPercent".toList) with
          | some (H5.ds v apAttrs) =>
            match createDS node (afterLastChar ' ' p.1) v with
            | none => none
            | some n1 =>
              match dictGet apAttrs ("units".toList) with
              | some u =>
                match setDSAttr n1 (afterLastChar ' ' p.1) ("units".toList) u with
                | none => none
                | some n2 => setDSAttr n2 (afterLastChar ' ' p.1) ("HT_type".toList) dt
              | none => edxFallback gEnt dt p.1 (afterLastChar ' ' p.1) n1
          | some (H5.grp _ _) => none
          | none => edxFallback gEnt dt p.1 (afterLastChar ' ' p.1) node
        | _ => none
      else some node) node
  | _ => none

/-- Present-coordinate path for MOKE (lines 658-676). -/
def presentMOKE (dt : Str) (coordE node : Entries) : Option Entries :=
  match dictGet coordE ("results".toList) with
  | some (H5.grp results _) =>
    results.foldlM (fun node p =>
      if p.1 = "coercivity_m0".toList then
        match dictGet results p.1 with
        | some (H5.grp ge _) =>
          match dictGet ge ("mean".toList) with
          | some (H5.ds v _) =>
            match createDS node p.1 v with
            | none => none
            | some n1 =>
              match setDSAttr n1 p.1 ("units".toList) ("Tesla (T)".toList) with
              | none => none
              | some n2 => setDSAttr n2 p.1 ("HT_type".toList) dt
          | _ => none
        | _ => none
      else some node) node
  | _ => none

/-- Present-coordinate path for XRD (lines 678-731). -/
def presentXRD (dt : Str) (coordE node : Entries) : Option Entries :=
  match (match dictGet coordE ("results".toList) with
         | some (H5.grp rE _) => dictGet rE ("phases".toList)
         | _ => none) with
  | some (H5.grp phases _) =>
    match dictGet coordE ("measurement".toList) with
    | some (H5.grp meas _) =>
      match phases.foldlM (fun node p =>
        match p.2 with
        | H5.grp pE _ =>
          saving_result_list.foldlM (fun node rk =>
            if dictHasKey pE rk then
              match dictGet pE rk with
              | some (H5.ds v vAttrs) =>
                match pyStrOfVal v with
                | none => none
                | some sv =>
                  match createDS node (p.1 ++ '_' :: rk)
                      (Scalar.raw (some (beforeFirstSeq ("+-".toList) (pyStrip sv)))) with
                  | none => none
                  | some n1 =>
                    match dictGet vAttrs ("units".toList) with
                    | some u =>
                      match setDSAttr n1 (p.1 ++ '_' :: rk) ("units".toList) u with
                      | none => none
                      | some n2 => setDSAttr n2 (p.1 ++ '_' :: rk) ("HT_type".toList) dt
                    | none => some n1
              | _ => none
            else some node) node
        | _ => none) node with
      | none => none
      | some n0 =>
        match (match dictGet meas ("CdTe_integrate".toList) with
               | some (H5.grp ciE _) => dictGet ciE ("intensity".toList)
               | _ => none) with
        | some (H5.ds iv _) =>
          match createDS n0 ("CdTe_integrate_intensity".toList) iv with
          | none => none
          | some n1 =>
            match setDSAttr n1 ("CdTe_integrate_intensity".toList) ("units".toList)
                ("arbitrary unit (a.u.)".toList) with
            | none => none
            | some n2 =>
              match setDSAttr n2 ("CdTe_integrate_intensity".toList) ("HT_type".toList) dt with
              | none => none
              | some n3 =>
                match (match dictGet meas ("CdTe_integrate".toList) with
                       | some (H5.grp ciE _) => dictGet ciE ("q".toList)
                       | _ => none) with
                | some (H5.ds qv _) =>
                  match createDS n3 ("CdTe_integrate_q".toList) qv with
                  | none => none
                  | some n4 =>
                    match setDSAttr n4 ("CdTe_integrate_q".toList) ("units".toList)
                        ("Angstrom^-1 (A^-1)".toList) with
                    | none => none
                    | some n5 =>
                      match setDSAttr n5 ("CdTe_integrate_q".toList) ("HT_type".toList) dt with
                      | none => none
                      | some n6 =>
                        match dictGet meas ("CdTe".toList) with
                        | some (H5.ds cv _) =>
                          match createDS n6 ("CdTe".toList) cv with
                          | none => none
                          | some n7 =>
                            setDSAttr n7 ("CdTe".toList) ("HT_type".toList) dt
                        | _ => none
                | _ => none
        | _ => none
    | _ => none
  | _ => none

/-- The part of the coordinate-loop body after the save-group creation
(lines 583-731): the NaN fill for coordinates absent from this category's
group, or the per-category copy for present coordinates. -/
def processCoordRest (gEnt : Entries) (dt : Str) (save : Entries) (coord : Str) :
    Option Entries :=
  if !(dictHasKey gEnt coord) then
    match dictGet save coord with
    | some (H5.grp node nattrs) =>
      match (match dictGet gEnt ("(0.0,0.0)".toList) with
             | some (H5.grp zE _) => dictGet zE ("results".toList)
             | _ => none) with
      | some (H5.grp refR _) =>
        match (if dt = "edx".toList then nanFillEDX dt refR node
               else if dt = "moke".toList then nanFillMOKE dt refR node
               else if dt = "xrd".toList then nanFillXRD refR node
               else some node) with
        | none => none
        | some node2 => some (dictInsert save coord (H5.grp node2 nattrs))
      | _ => none
    | _ => none
  else
    match dictGet save coord, dictGet gEnt coord with
    | some (H5.grp node nattrs), some (H5.grp coordE _) =>
      match (if dt = "edx".toList then presentEDX gEnt dt coordE node
             else if dt = "moke".toList then presentMOKE dt coordE node
             else if dt = "xrd".toList then presentXRD dt coordE node
             else some node) with
      | none => none
      | some node2 => some (dictInsert save coord (H5.grp node2 nattrs))
    | _, _ => none

/-- The body of `for coord in coord_list` (lines 556-731): create the output
coordinate group with the copied positions when it does not exist yet
(skipping the coordinate entirely when the source has no instrument for it),
then run the fill/copy step. -/
def processCoord (gEnt : Entries) (dt : Str) (save : Entries) (coord : Str) :
    Option Entries :=
  if dictHasKey save coord then processCoordRest gEnt dt save coord
  else
    match (match dictGet gEnt coord with
           | some (H5.grp ce _) => dictGet ce ("instrument".toList)
           | _ => none) with
    | none => some save
    | some (H5.ds _ _) => none
    | some (H5.grp iE _) =>
      match dictGet iE ("x_pos".toList), dictGet iE ("y_pos".toList) with
      | some (H5.ds xv xa), some (H5.ds yv ya) =>
        match dictGet xa ("units".toList), dictGet ya ("units".toList) with
        | some xu, some yu =>
          processCoordRest gEnt dt
            (save ++ [(coord, H5.grp
              [("x_pos".toList, H5.ds xv
                  [("units".toList, xu), ("HT_type".toList, "position".toList)]),
               ("y_pos".toList, H5.ds yv
                  [("units".toList, yu), ("HT_type".toList, "position".toList)])] [])])
            coord
        | _, _ => none
      | _, _ => none

/-- `create_simplified_dataset(hdf5_file, hdf5_save_file)`: iterate the
top-level groups; groups without an `HT_type` attribute or with an unknown
one are skipped; for the known categories every coordinate of the fixed grid
is processed. -/
def create_simplified_dataset (root : Entries) : Option Entries :=
  root.foldlM (fun save p =>
    match attrGet p.2 ("HT_type".toList) with
    | none => some save
    | some dt =>
      if group_list.contains dt then
        match p.2 with
        | H5.grp ge _ => coord_list.foldlM (processCoord ge dt) save
        | H5.ds _ _ => none
      else some save) []

/-- Look up field `k` of output coordinate group `coord`. -/
def getNode (es : Entries) (coord k : Str) : Option H5 :=
  match dictGet es coord with
  | some (H5.grp ne _) => dictGet ne k
  | _ => none

/-- Field `k` at coordinate `coord` of the compacted store built from
`root`. -/
def simplifiedField (root : Entries) (coord k : Str) : Option H5 :=
  match create_simplified_dataset root with
  | some out => getNode out coord k
  | none => none

/-- An instrument group recording position `(x, y)` in millimetres. -/
def posInstr (x y : ℚ) : Str × H5 :=
  ("instrument".toList, H5.grp
    [("x_pos".toList, H5.ds (Scalar.num x) [("units".toList, "mm".toList)]),
     ("y_pos".toList, H5.ds (Scalar.num y) [("units".toList, "mm".toList)])] [])

/-- First concrete source group: an EDX category present at both `(0.0,0.0)`
and `(-40.0,-40.0)`, establishing both output coordinate groups. -/
def exCoordGrpA (x y : ℚ) : H5 :=
  H5.grp [posInstr x y,
    ("results".toList, H5.grp
      [("Element Zz".toList, H5.grp
        [("AtomPercent".toList, H5.ds (Scalar.num 7) [("units".toList, "pc".toList)])]
        [])] [])] []

def exGroupA : H5 :=
  H5.grp [("(0.0,0.0)".toList, exCoordGrpA 0 0),
          ("(-40.0,-40.0)".toList, exCoordGrpA (-40) (-40))]
    [("HT_type".toList, "edx".toList)]

/-- Second concrete source group: an EDX category present only at
`(0.0,0.0)`, whose reference `AtomPercent` carries unit `u`. -/
def exGroupB (u : Str) : H5 :=
  H5.grp [("(0.0,0.0)".toList, H5.grp [posInstr 0 0,
    ("results".toList, H5.grp
      [("Element Fe".toList, H5.grp
        [("AtomPercent".toList, H5.ds (Scalar.num 42) [("units".toList, u)])] [])]
      [])] [])]
    [("HT_type".toList, "edx".toList)]

/-- Third concrete source group: a MOKE category present only at
`(0.0,0.0)`, whose reference `mean` carries unit `u`. -/
def exGroupC (u : Str) : H5 :=
  H5.grp [("(0.0,0.0)".toList, H5.grp [posInstr 0 0,
    ("results".toList, H5.grp
      [("coercivity_m0".toList, H5.grp
        [("mean".toList, H5.ds (Scalar.num 1) [("units".toList, u)])] [])]
      [])] [])]
    [("HT_type".toList, "moke".toList)]

/-- Fourth concrete source group: an XRD category present only at
`(0.0,0.0)`, whose reference lattice constant `A` carries unit `u`. -/
def exGroupD (u : Str) : H5 :=
  H5.grp [("(0.0,0.0)".toList, H5.grp [posInstr 0 0,
    ("results".toList, H5.grp
      [("phases".toList, H5.grp
        [("P1".toList, H5.grp
          [("A".toList, H5.ds (Scalar.raw (some ("4.2+-0.1".toList)))
            [("units".toList, u)])] [])] [])]
      []),
    ("measurement".toList, H5.grp
      [("CdTe_integrate".toList, H5.grp
        [("intensity".toList, H5.ds (Scalar.num 5) []),
         ("q".toList, H5.ds (Scalar.num 6) [])] []),
       ("CdTe".toList, H5.ds (Scalar.num 9) [])] [])] [])]
    [("HT_type".toList, "xrd".toList)]

/-- The concrete source store for C9, parameterized by the reference unit
string `u`. -/
def exRootP (u : Str) : Entries :=
  [("a_edx".toList, exGroupA), ("b_edx".toList, exGroupB u),
   ("c_moke".toList, exGroupC u), ("d_xrd".toList, exGroupD u)]

/-- The unit attribute stored on the reference `A` lattice constant of the
XRD group in `exRootP u`. -/
def xrdRefUnits (root : Entries) : Option Str :=
  match dictGet root ("d_xrd".toList) with
  | some g =>
    match grpGet g ("(0.0,0.0)".toList) with
    | some cg =>
      match grpGet cg ("results".toList) with
      | some rg =>
        match grpGet rg ("phases".toList) with
        | some pg =>
          match grpGet pg ("P1".toList) with
          | some p1 =>
            match grpGet p1 ("A".toList) with
            | some a => attrGet a ("units".toList)
            | none => none
          | none => none
        | none => none
      | none => none
    | none => none
  | none => none

/-- The unit attribute of a field of the compacted store, `none` when the
field or the attribute is absent. -/
def simplifiedFieldUnits (root : Entries) (coord k : Str) : Option Str :=
  match simplifiedField root coord k with
  | some h => attrGet h ("units".toList)
  | none => none

/-! ## `get_wafer_positions` (compile_edx.py, lines 129-146) -/

/-- `get_wafer_positions(scan_numbers, step_x, step_y, start_x, start_y)`. -/
def get_wafer_positions (scan_numbers : Int × Int)
    (step_x step_y start_x start_y : Int) : Int × Int :=
  ((scan_numbers.1 - 1) * step_x + start_x, (scan_numbers.2 - 1) * step_y + start_y)

/-- The call with Python's default arguments `step=5`, `start=-40` per axis. -/
def get_wafer_positions_default (scan_numbers : Int × Int) : Int × Int :=
  get_wafer_positions scan_numbers 5 5 (-40) (-40)

/-- The wafer-position formula exactly as the claim states it. -/
def waferPositionSpec (x_idx y_idx step_x step_y start_x start_y : Int) : Int × Int :=
  ((x_idx - 1) * step_x + start_x, (y_idx - 1) * step_y + start_y)

/-! ## Edge-exclusion comparators (read_hdf5.py, lines 136-138 and 468-470) -/

/-- The `continue` condition of every loop in `get_full_dataset`:
`np.abs(x) + np.abs(y) >= 60 and exclude_wafer_edges`. -/
def full_dataset_skip (exclude_wafer_edges : Bool) (p : ℚ × ℚ) : Bool :=
  decide (|p.1| + |p.2| ≥ 60) && exclude_wafer_edges

/-- The `continue` condition of the loop in `get_measurement_data`:
`np.abs(x) + np.abs(y) > 60 and exclude_wafer_edges`. -/
def measurement_skip (exclude_wafer_edges : Bool) (p : ℚ × ℚ) : Bool :=
  decide (|p.1| + |p.2| > 60) && exclude_wafer_edges

/-- The positions actually processed by `get_full_dataset`'s loops. -/
def get_full_dataset_positions (positions : List (ℚ × ℚ))
    (exclude_wafer_edges : Bool) : List (ℚ × ℚ) :=
  positions.filter (fun p => !(full_dataset_skip exclude_wafer_edges p))

/-- The positions actually processed by `get_measurement_data`'s loop. -/
def get_measurement_positions (positions : List (ℚ × ℚ))
    (exclude_wafer_edges : Bool) : List (ℚ × ℚ) :=
  positions.filter (fun p => !(measurement_skip exclude_wafer_edges p))

/-! ## `get_measurement_data` data_type validation (read_hdf5.py, lines 447-455) -/

/-- Concrete inputs for the C7 witness. -/
def exC7m : Dict := [("Element".toList, PyVal.s (some ("26".toList)))]

def exC7gOld : Entries :=
  [("Atom".toList, H5.ds (Scalar.raw (some ("26".toList))) [])]

def exC7st : WState :=
  ⟨[], [("Result ".toList ++ "26".toList, H5.grp exC7gOld [])]⟩

/-- The validation prefix of `get_measurement_data`: `Sum.inl 1` models the
`print(...); return 1` path, `Sum.inr dts` the list of data types that the
function goes on to process. -/
def get_measurement_data_dispatch (data_type : Str) : Sum Int (List Str) :=
  if pyLower data_type = "all".toList then
    Sum.inr (["EDX".toList, "MOKE".toList, "XRD".toList])
  else if pyLower data_type ∉ (["edx".toList, "moke".toList, "xrd".toList] : List Str) then
    Sum.inl 1
  else
    Sum.inr [data_type]

end ReadHdf5

namespace ReadHdf5

/-! ## Association-list lemmas -/

@[simp] theorem dictGet_nil {α : Type} (k : Str) : dictGet ([] : List (Str × α)) k = none := rfl

@[simp] theorem dictGet_cons {α : Type} (p : Str × α) (rest : List (Str × α)) (k : Str) :
    dictGet (p :: rest) k = if p.1 = k then some p.2 else dictGet rest k := rfl

@[simp] theorem dictHasKey_nil {α : Type} (k : Str) :
    dictHasKey ([] : List (Str × α)) k = false := rfl

@[simp] theorem dictHasKey_cons {α : Type} (p : Str × α) (rest : List (Str × α)) (k : Str) :
    dictHasKey (p :: rest) k = ((p.1 = k : Bool) || dictHasKey rest k) := rfl

theorem dictHasKey_iff_get_isSome {α : Type} (d : List (Str × α)) (k : Str) :
    dictHasKey d k = true ↔ (dictGet d k).isSome = true := by
  induction d with
  | nil => simp
  | cons p rest ih =>
    by_cases hp : p.1 = k <;> simp [hp, ih]

theorem dictGet_append {α : Type} (d e : List (Str × α)) (k : Str) :
    dictGet (d ++ e) k = (dictGet d k).orElse (fun _ => dictGet e k) := by
  induction d with
  | nil => simp [Option.orElse]
  | cons p rest ih =>
    by_cases hp : p.1 = k <;> simp [hp, ih, Option.orElse]

theorem dictGet_eq_none_of_not_hasKey {α : Type} (d : List (Str × α)) (k : Str)
    (h : dictHasKey d k = false) : dictGet d k = none := by
  cases hg : dictGet d k with
  | none => rfl
  | some v =>
    have := (dictHasKey_iff_get_isSome d k).mpr (by simp [hg])
    rw [this] at h
    cases h

theorem dictGet_mapUpdate_self {α : Type} (d : List (Str × α)) (k : Str) (v : α)
    (h : dictHasKey d k = true) :
    dictGet (d.map (fun p => if p.1 = k then (k, v) else p)) k = some v := by
  induction d with
  | nil => simp at h
  | cons p rest ih =>
    simp only [List.map_cons, dictGet_cons]
    by_cases hp : p.1 = k
    · have hfp : (if p.1 = k then (k, v) else p) = (k, v) := if_pos hp
      rw [hfp]
      simp
    · have hfp : (if p.1 = k then (k, v) else p) = p := if_neg hp
      rw [hfp, if_neg hp]
      have h' : dictHasKey rest k = true := by
        rw [dictHasKey_cons] at h
        simpa [hp] using h
      exact ih h'

theorem dictGet_mapUpdate_ne {α : Type} (d : List (Str × α)) (k k' : Str) (v : α)
    (hne : k' ≠ k) :
    dictGet (d.map (fun p => if p.1 = k then (k, v) else p)) k' = dictGet d k' := by
  induction d with
  | nil => simp
  | cons p rest ih =>
    simp only [List.map_cons, dictGet_cons]
    by_cases hp : p.1 = k
    · have hfp : (if p.1 = k then (k, v) else p) = (k, v) := if_pos hp
      have h1 : ((k, v) : Str × α).1 ≠ k' := fun hc => hne hc.symm
      have h2 : p.1 ≠ k' := by rw [hp]; exact fun hc => hne hc.symm
      rw [hfp, if_neg h1, if_neg h2, ih]
    · have hfp : (if p.1 = k then (k, v) else p) = p := if_neg hp
      rw [hfp]
      by_cases hpk : p.1 = k'
      · rw [if_pos hpk, if_pos hpk]
      · rw [if_neg hpk, if_neg hpk, ih]

theorem dictGet_insert_self {α : Type} (d : List (Str × α)) (k : Str) (v : α) :
    dictGet (dictInsert d k v) k = some v := by
  unfold dictInsert
  by_cases h : dictHasKey d k
  · rw [if_pos h]
    exact dictGet_mapUpdate_self d k v h
  · rw [if_neg h]
    rw [dictGet_append]
    rw [dictGet_eq_none_of_not_hasKey d k (by simpa using h)]
    simp [Option.orElse]

theorem dictGet_insert_ne {α : Type} (d : List (Str × α)) (k k' : Str) (v : α)
    (hne : k' ≠ k) : dictGet (dictInsert d k v) k' = dictGet d k' := by
  unfold dictInsert
  by_cases h : dictHasKey d k
  · rw [if_pos h]
    exact dictGet_mapUpdate_ne d k k' v hne
  · rw [if_neg h]
    rw [dictGet_append]
    have hkk : k ≠ k' := fun hc => hne hc.symm
    cases hg : dictGet d k' with
    | none => simp [Option.orElse, hg, hkk]
    | some v' => simp [Option.orElse, hg]

theorem dictGet_insert_isSome {α : Type} (d : List (Str × α)) (k k' : Str) (v : α)
    (h : (dictGet d k').isSome) : (dictGet (dictInsert d k v) k').isSome := by
  by_cases hk : k' = k
  · subst hk; simp [dictGet_insert_self]
  · rw [dictGet_insert_ne d k k' v hk]; exact h

theorem dictHasKey_insert_ne {α : Type} (d : List (Str × α)) (k k' : Str) (v : α)
    (hne : k' ≠ k) : dictHasKey (dictInsert d k v) k' = dictHasKey d k' := by
  rcases hb : dictHasKey d k' with _ | _
  · have h1 : dictGet (dictInsert d k v) k' = none := by
      rw [dictGet_insert_ne d k k' v hne]
      exact dictGet_eq_none_of_not_hasKey d k' hb
    by_contra hc
    have hc' : dictHasKey (dictInsert d k v) k' = true := by
      rcases hx : dictHasKey (dictInsert d k v) k' with _ | _
      · exact absurd hx hc
      · rfl
    have := (dictHasKey_iff_get_isSome _ k').mp hc'
    rw [h1] at this
    cases this
  · have h1 : (dictGet d k').isSome := (dictHasKey_iff_get_isSome d k').mp hb
    have h2 : (dictGet (dictInsert d k v) k').isSome := by
      rw [dictGet_insert_ne d k k' v hne]; exact h1
    exact ((dictHasKey_iff_get_isSome _ k').mpr h2).trans rfl

theorem dictInsert_length_new {α : Type} (d : List (Str × α)) (k : Str) (v : α)
    (h : dictHasKey d k = false) : (dictInsert d k v).length = d.length + 1 := by
  unfold dictInsert
  simp [h]

/-! ## String-scanning lemmas -/

theorem takeWhile_all_eq (p : Char → Bool) (l : Str) (h : ∀ a ∈ l, p a = true) :
    l.takeWhile p = l := by
  induction l with
  | nil => rfl
  | cons c rest ih =>
    have hc : p c = true := h c (by simp)
    simp only [List.takeWhile_cons, hc, if_true]
    rw [ih (fun a ha => h a (by simp [ha]))]

theorem takeWhile_append_all (p : Char → Bool) (u v : Str) (h : ∀ a ∈ u, p a = true) :
    (u ++ v).takeWhile p = u ++ v.takeWhile p := by
  induction u with
  | nil => simp
  | cons c rest ih =>
    have hc : p c = true := h c (by simp)
    simp only [List.cons_append, List.takeWhile_cons, hc, if_true]
    rw [ih (fun a ha => h a (by simp [ha]))]

theorem afterLastChar_no_sep (c : Char) (s : Str) (h : c ∉ s) :
    afterLastChar c s = s := by
  unfold afterLastChar
  rw [takeWhile_all_eq]
  · exact List.reverse_reverse s
  · intro a ha
    have : a ∈ s := by simpa using ha
    have hac : a ≠ c := fun hc => h (hc ▸ this)
    simp [hac]

theorem afterLastChar_append (c : Char) (u v : Str) (h : c ∉ v) :
    afterLastChar c (u ++ c :: v) = v := by
  unfold afterLastChar
  have hrev : (u ++ c :: v).reverse = v.reverse ++ c :: u.reverse := by
    simp
  rw [hrev]
  rw [takeWhile_append_all _ _ _ (fun a ha => by
    have : a ∈ v := by simpa using ha
    have hac : a ≠ c := fun hc => h (hc ▸ this)
    simp [hac])]
  simp only [List.takeWhile_cons, beq_self_eq_true, Bool.not_true, if_false]
  simp

theorem beforeFirstChar_append (c : Char) (u v : Str) (h : c ∉ u) :
    beforeFirstChar c (u ++ c :: v) = u := by
  unfold beforeFirstChar
  rw [takeWhile_append_all _ _ _ (fun a ha => by
    have hac : a ≠ c := fun hc => h (hc ▸ ha)
    simp [hac])]
  simp only [List.takeWhile_cons, beq_self_eq_true, Bool.not_true, if_false]
  simp

theorem not_mem_append_char (c : Char) (u v : Str) (h1 : c ∉ u) (h2 : c ∉ v) :
    c ∉ u ++ v := fun h =>
  match List.mem_append.mp h with
  | Or.inl h => h1 h
  | Or.inr h => h2 h

theorem not_mem_cons_char (c d : Char) (v : Str) (h1 : c ≠ d) (h2 : c ∉ v) :
    c ∉ d :: v := fun h =>
  match List.mem_cons.mp h with
  | Or.inl h => h1 h
  | Or.inr h => h2 h

theorem listStartsWith_refl_append (p r : Str) : listStartsWith p (p ++ r) = true := by
  induction p with
  | nil => rfl
  | cons c rest ih => simp [listStartsWith, ih]

theorem beforeFirstSeq_boundary (sep : Str) (c : Char) (t a b : Str)
    (hsep : sep = c :: t) (h : c ∉ a) :
    beforeFirstSeq sep (a ++ sep ++ b) = a := by
  subst hsep
  induction a with
  | nil =>
    simp only [List.nil_append]
    have hred : (c :: t) ++ b = c :: (t ++ b) := rfl
    rw [hred]
    unfold beforeFirstSeq
    rw [if_pos]
    exact listStartsWith_refl_append (c :: t) b
  | cons d rest ih =>
    have hd : d ≠ c := fun hc => h (by simp [hc])
    have hdc : (c == d) = false := by
      simp only [beq_eq_false_iff_ne]
      exact fun hc => hd hc.symm
    simp only [List.cons_append]
    unfold beforeFirstSeq
    rw [if_neg]
    · rw [ih (fun hc => h (by simp [hc]))]
    · simp [listStartsWith, hdc]

theorem splitChar_no_sep (c : Char) (s : Str) (h : c ∉ s) : splitChar c s = [s] := by
  induction s with
  | nil => rfl
  | cons d rest ih =>
    have hd : d ≠ c := fun hc => h (by simp [hc])
    have hdc : (d == c) = false := by simp [hd]
    unfold splitChar
    rw [ih (fun hc => h (by simp [hc]))]
    simp [hdc]

theorem splitChar_pair (c : Char) (u v : Str) (hu : c ∉ u) (hv : c ∉ v) :
    splitChar c (u ++ c :: v) = [u, v] := by
  induction u with
  | nil =>
    simp only [List.nil_append]
    unfold splitChar
    rw [splitChar_no_sep c v hv]
    simp
  | cons d rest ih =>
    have hd : d ≠ c := fun hc => hu (by simp [hc])
    have hdc : (d == c) = false := by simp [hd]
    simp only [List.cons_append]
    unfold splitChar
    rw [ih (fun hc => hu (by simp [hc]))]
    simp [hdc]

/-! ## Decimal numeral lemmas -/

theorem charOfDigit_toNat (d : Nat) (h : d < 10) :
    (Char.ofNat (48 + d)).toNat = 48 + d := by
  interval_cases d <;> decide

theorem charOfDigit_isDigit (d : Nat) (h : d < 10) :
    isDigitCh (Char.ofNat (48 + d)) = true := by
  interval_cases d <;> decide

theorem natDecimal_all_digits (n : Nat) :
    ∀ c ∈ natDecimal n, isDigitCh c = true := by
  intro c hc
  unfold natDecimal at hc
  rw [List.mem_reverse] at hc
  rcases List.mem_map.mp hc with ⟨d, hd, rfl⟩
  exact charOfDigit_isDigit d (Nat.digits_lt_base (by norm_num) hd)

theorem not_mem_natDecimal (n : Nat) (c : Char) (hc : isDigitCh c = false) :
    c ∉ natDecimal n := by
  intro h
  have := natDecimal_all_digits n c h
  rw [this] at hc
  cases hc

theorem foldl_digits_horner (ds : List Nat) (h : ∀ d ∈ ds, d < 10) (acc : Nat) :
    List.foldl (fun a c => a * 10 + (c.toNat - 48)) acc
      ((ds.map (fun d => Char.ofNat (48 + d))).reverse) =
    acc * 10 ^ ds.length + Nat.ofDigits 10 ds := by
  induction ds generalizing acc with
  | nil => simp [Nat.ofDigits]
  | cons d tl ih =>
    have hd : d < 10 := h d (by simp)
    simp only [List.map_cons, List.reverse_cons, List.foldl_append, List.foldl_cons,
      List.foldl_nil]
    rw [ih (fun e he => h e (by simp [he]))]
    rw [charOfDigit_toNat d hd]
    have hsub : 48 + d - 48 = d := by omega
    rw [hsub]
    rw [Nat.ofDigits_cons]
    simp only [List.length_cons, pow_succ]
    ring

theorem digitsToNat_natDecimal (n : Nat) : digitsToNat (natDecimal n) = n := by
  unfold digitsToNat natDecimal
  rw [foldl_digits_horner (Nat.digits 10 n)
    (fun d hd => Nat.digits_lt_base (by norm_num) hd) 0]
  simp [Nat.ofDigits_digits]

theorem natDecimal_ne_nil (n : Nat) (h : 0 < n) : natDecimal n ≠ [] := by
  unfold natDecimal
  simp only [ne_eq, List.reverse_eq_nil_iff, List.map_eq_nil_iff]
  exact Nat.digits_ne_nil_iff_ne_zero.mpr (Nat.pos_iff_ne_zero.mp h)

theorem pyInt_natDecimal (n : Nat) (h : 0 < n) :
    pyInt (natDecimal n) = some ((n : Int)) := by
  cases hnd : natDecimal n with
  | nil => exact absurd hnd (natDecimal_ne_nil n h)
  | cons c cs =>
    have hcd : isDigitCh c = true := by
      have := natDecimal_all_digits n c (by rw [hnd]; simp)
      exact this
    have hcm : (c == '-') = false := by
      simp only [beq_eq_false_iff_ne]
      intro hc
      rw [hc] at hcd
      cases hcd
    have hall : (c :: cs).all isDigitCh = true := by
      rw [← hnd]
      rw [List.all_eq_true]
      exact natDecimal_all_digits n
    unfold pyInt
    simp only [List.isEmpty_cons, List.headD_cons, hcm, Bool.false_eq_true, if_false, hall,
      if_true]
    rw [← hnd, digitsToNat_natDecimal]

/-! ## C3: filename round trip -/

/-- C3: for every pair of 1-based positive indices `(x, y)` and every stem
without `'.'` or `'/'` characters, embedding the pair into the canonical
filename pattern `<stem>(<x>,<y>).spx` and applying `get_scan_numbers`
returns exactly the original pair: the scan-identity reader inverts the
filename embedding convention on valid filenames. -/
theorem get_scan_numbers_roundtrip (stem : Str) (x y : Nat)
    (hx : 0 < x) (hy : 0 < y) (hdot : '.' ∉ stem) (hslash : '/' ∉ stem) :
    get_scan_numbers (spxFilename stem x y) = some ((x : Int), (y : Int)) := by
  have hd_slash_x : '/' ∉ natDecimal x := not_mem_natDecimal x '/' (by decide)
  have hd_slash_y : '/' ∉ natDecimal y := not_mem_natDecimal y '/' (by decide)
  have hd_dot_x : '.' ∉ natDecimal x := not_mem_natDecimal x '.' (by decide)
  have hd_dot_y : '.' ∉ natDecimal y := not_mem_natDecimal y '.' (by decide)
  have hd_lp_x : '(' ∉ natDecimal x := not_mem_natDecimal x '(' (by decide)
  have hd_lp_y : '(' ∉ natDecimal y := not_mem_natDecimal y '(' (by decide)
  have hd_rp_x : ')' ∉ natDecimal x := not_mem_natDecimal x ')' (by decide)
  have hd_rp_y : ')' ∉ natDecimal y := not_mem_natDecimal y ')' (by decide)
  have hd_cm_x : ',' ∉ natDecimal x := not_mem_natDecimal x ',' (by decide)
  have hd_cm_y : ',' ∉ natDecimal y := not_mem_natDecimal y ',' (by decide)
  -- step 1: filepath.split("/")[-1] leaves the whole name intact
  have e1 : afterLastChar '/' (spxFilename stem x y) = spxFilename stem x y :=
    afterLastChar_no_sep '/' _
      (not_mem_append_char _ _ _ hslash
        (not_mem_cons_char _ _ _ (by decide)
          (not_mem_append_char _ _ _ hd_slash_x
            (not_mem_cons_char _ _ _ (by decide)
              (not_mem_append_char _ _ _ hd_slash_y (by decide))))))
  -- step 2: .split(".spx")[0] removes the extension
  have hshape : spxFilename stem x y =
      (stem ++ '(' :: (natDecimal x ++ ',' :: (natDecimal y ++ [')']))) ++
        ".spx".toList ++ [] := by
    unfold spxFilename
    simp
  have e2 : beforeFirstSeq (".spx".toList) (spxFilename stem x y) =
      stem ++ '(' :: (natDecimal x ++ ',' :: (natDecimal y ++ [')'])) := by
    rw [hshape]
    exact beforeFirstSeq_boundary (".spx".toList) '.' ("spx".toList) _ _ rfl
      (not_mem_append_char _ _ _ hdot
        (not_mem_cons_char _ _ _ (by decide)
          (not_mem_append_char _ _ _ hd_dot_x
            (not_mem_cons_char _ _ _ (by decide)
              (not_mem_append_char _ _ _ hd_dot_y (by decide))))))
  -- step 3: .split("(")[-1] keeps the index block
  have e3 : afterLastChar '('
      (stem ++ '(' :: (natDecimal x ++ ',' :: (natDecimal y ++ [')']))) =
      natDecimal x ++ ',' :: (natDecimal y ++ [')']) :=
    afterLastChar_append '(' _ _
      (not_mem_append_char _ _ _ hd_lp_x
        (not_mem_cons_char _ _ _ (by decide)
          (not_mem_append_char _ _ _ hd_lp_y (by decide))))
  -- step 4: .split(")")[0] drops the closing parenthesis
  have hshape2 : natDecimal x ++ ',' :: (natDecimal y ++ [')']) =
      (natDecimal x ++ ',' :: natDecimal y) ++ ')' :: [] := by
    simp
  have e4 : beforeFirstChar ')' (natDecimal x ++ ',' :: (natDecimal y ++ [')'])) =
      natDecimal x ++ ',' :: natDecimal y := by
    rw [hshape2]
    exact beforeFirstChar_append ')' _ _
      (not_mem_append_char _ _ _ hd_rp_x
        (not_mem_cons_char _ _ _ (by decide) hd_rp_y))
  -- step 5: .split(",") yields the two numerals
  have e5 : splitChar ',' (natDecimal x ++ ',' :: natDecimal y) =
      [natDecimal x, natDecimal y] :=
    splitChar_pair ',' _ _ hd_cm_x hd_cm_y
  -- step 6: int() recovers the indices
  unfold get_scan_numbers
  rw [e1, e2, e3, e4, e5]
  simp [pyInt_natDecimal x hx, pyInt_natDecimal y hy]

/-- Witness for C3 at the concrete filename `scan(3,7).spx`. -/
theorem get_scan_numbers_roundtrip_witness :
    0 < 3 ∧ 0 < 7 ∧
    get_scan_numbers (spxFilename ("scan".toList) 3 7) = some ((3 : Int), (7 : Int)) :=
  ⟨by decide, by decide,
    get_scan_numbers_roundtrip ("scan".toList) 3 7 (by decide) (by decide)
      (by decide) (by decide)⟩

/-! ## C1: the shared mutable default accumulator -/

/-- C1 (code bug): the spec requires the normalizer to allocate a fresh empty
accumulator per call, but `visit_items` uses the Python mutable-default
`edx_dict={}`: after an earlier call on `<A/>`, the same call on `<B/>`
returns a tree that still contains the `"A"` entry produced by the previous
call, and therefore differs from the tree returned by the identical call made
with a fresh default dict. -/
theorem visit_items_default_accumulator_bug :
    visit_items_default [] xmlNodeB =
      some ([(("B".toList : Str), PyVal.d [])], [(("B".toList : Str), PyVal.d [])]) ∧
    visit_items_default [] xmlNodeA =
      some ([(("A".toList : Str), PyVal.d [])], [(("A".toList : Str), PyVal.d [])]) ∧
    (visit_items_default [(("A".toList : Str), PyVal.d [])] xmlNodeB).map
        (fun r => r.1.map Prod.fst) =
      some [("A".toList : Str), ("B".toList : Str)] ∧
    ([("A".toList : Str), ("B".toList : Str)] : List Str) ≠ [("B".toList : Str)] :=
  ⟨rfl, rfl, rfl, by decide⟩

/-! ## C2: shape of the normalized tree -/

/-- C2 (counterexample): for the node `<A><B>b</B><C><D>d</D></C></A>` with
2 non-ignored children and distinct disambiguated names, the claim predicts 2
entries in the parent's mapping, with the non-leaf child `C` nested under the
key `"A"`; in fact `visit_items` leaves only 1 entry (the leaf `B`) under
`"A"` and places `C` as a separate top-level entry of the accumulator. -/
theorem visit_items_nesting_counterexample :
    (nonIgnoredChildren xmlNodeTop).length = 2 ∧
    visit_items xmlNodeTop [] =
      some [(("A".toList : Str), PyVal.d [(("B".toList : Str), PyVal.s (some ("b".toList)))]),
            (("C".toList : Str), PyVal.d [(("D".toList : Str), PyVal.s (some ("d".toList)))])] ∧
    innerCount
      [(("A".toList : Str), PyVal.d [(("B".toList : Str), PyVal.s (some ("b".toList)))]),
       (("C".toList : Str), PyVal.d [(("D".toList : Str), PyVal.s (some ("d".toList)))])]
      ("A".toList) = 1 ∧
    (1 : Nat) ≠ 2 :=
  ⟨rfl, rfl, rfl, by decide⟩

/-! ## Lemmas about `visit_items` -/

mutual
theorem visit_items_untouched (x : Xml) (acc res : Dict)
    (h : visit_items x acc = some res) (k : Str) (hk : k ∉ touchedNames x) :
    dictGet res k = dictGet acc k := by
  cases x with
  | node t a s cs =>
    unfold visit_items at h
    cases hp : parentName (Xml.node t a s cs) with
    | none => rw [hp] at h; cases h
    | some pname =>
      rw [hp] at h
      have hk1 : k ≠ pname := fun hc => hk (by
        unfold touchedNames
        rw [hp, hc]
        exact List.mem_append.mpr (Or.inl (by simp)))
      have hk2 : k ∉ touchedNamesList cs := fun hc => hk (by
        unfold touchedNames
        exact List.mem_append.mpr (Or.inr hc))
      rw [visitChildren_untouched pname cs _ res h k hk1 hk2]
      exact dictGet_insert_ne acc pname k (PyVal.d []) hk1

theorem visitChildren_untouched (pname : Str) (cs : List Xml) (acc res : Dict)
    (h : visitChildren pname cs acc = some res) (k : Str) (hk1 : k ≠ pname)
    (hk2 : k ∉ touchedNamesList cs) : dictGet res k = dictGet acc k := by
  cases cs with
  | nil =>
    unfold visitChildren at h
    cases h
    rfl
  | cons c rest =>
    unfold visitChildren at h
    have hk2r : k ∉ touchedNamesList rest := fun hc => hk2 (by
      unfold touchedNamesList
      exact List.mem_append.mpr (Or.inr hc))
    by_cases hig : ignoredTag c.tag
    · rw [if_pos hig] at h
      exact visitChildren_untouched pname rest acc res h k hk1 hk2r
    · rw [if_neg hig] at h
      by_cases hleaf : c.children.isEmpty
      · rw [if_pos hleaf] at h
        cases hm : dictGet acc pname with
        | none => rw [hm] at h; cases h
        | some v =>
          cases v with
          | s tx => rw [hm] at h; cases h
          | d m =>
            rw [hm] at h
            rw [visitChildren_untouched pname rest _ res h k hk1 hk2r]
            exact dictGet_insert_ne acc pname k _ hk1
      · rw [if_neg hleaf] at h
        cases hv : visit_items c acc with
        | none => rw [hv] at h; cases h
        | some acc2 =>
          rw [hv] at h
          have hkt : k ∉ touchedNames c := fun hc => hk2 (by
            unfold touchedNamesList
            rw [if_neg (by simp [hig, hleaf])]
            exact List.mem_append.mpr (Or.inl hc))
          rw [visitChildren_untouched pname rest acc2 res h k hk1 hk2r]
          exact visit_items_untouched c acc acc2 hv k hkt
end

mutual
theorem visit_items_mono (x : Xml) (acc res : Dict) (h : visit_items x acc = some res)
    (k : Str) (hs : (dictGet acc k).isSome) : (dictGet res k).isSome := by
  cases x with
  | node t a s cs =>
    unfold visit_items at h
    cases hp : parentName (Xml.node t a s cs) with
    | none => rw [hp] at h; cases h
    | some pname =>
      rw [hp] at h
      exact visitChildren_mono pname cs _ res h k (dictGet_insert_isSome acc pname k _ hs)

theorem visitChildren_mono (pname : Str) (cs : List Xml) (acc res : Dict)
    (h : visitChildren pname cs acc = some res) (k : Str)
    (hs : (dictGet acc k).isSome) : (dictGet res k).isSome := by
  cases cs with
  | nil =>
    unfold visitChildren at h
    cases h
    exact hs
  | cons c rest =>
    unfold visitChildren at h
    by_cases hig : ignoredTag c.tag
    · rw [if_pos hig] at h
      exact visitChildren_mono pname rest acc res h k hs
    · rw [if_neg hig] at h
      by_cases hleaf : c.children.isEmpty
      · rw [if_pos hleaf] at h
        cases hm : dictGet acc pname with
        | none => rw [hm] at h; cases h
        | some v =>
          cases v with
          | s tx => rw [hm] at h; cases h
          | d m =>
            rw [hm] at h
            exact visitChildren_mono pname rest _ res h k
              (dictGet_insert_isSome _ _ _ _ hs)
      · rw [if_neg hleaf] at h
        cases hv : visit_items c acc with
        | none => rw [hv] at h; cases h
        | some acc2 =>
          rw [hv] at h
          exact visitChildren_mono pname rest acc2 res h k
            (visit_items_mono c acc acc2 hv k hs)
end

theorem visit_items_some_name (x : Xml) (acc res : Dict)
    (h : visit_items x acc = some res) : ∃ q, parentName x = some q := by
  cases x with
  | node t a s cs =>
    unfold visit_items at h
    cases hq : parentName (Xml.node t a s cs) with
    | none => rw [hq] at h; cases h
    | some q => exact ⟨q, rfl⟩

theorem visit_items_name_present (x : Xml) (acc res : Dict) (p : Str)
    (hp : parentName x = some p) (h : visit_items x acc = some res) :
    (dictGet res p).isSome := by
  cases x with
  | node t a s cs =>
    unfold visit_items at h
    rw [hp] at h
    exact visitChildren_mono p cs _ res h p (by rw [dictGet_insert_self]; rfl)

theorem visitChildren_content : ∀ (cs : List Xml) (pname : Str) (acc m res : Dict),
    visitChildren pname cs acc = some res →
    dictGet acc pname = some (PyVal.d m) →
    pname ∉ touchedNamesList cs →
    dictGet res pname = some (PyVal.d (leafFold m cs)) := by
  intro cs
  induction cs with
  | nil =>
    intro pname acc m res h hm _
    unfold visitChildren at h
    cases h
    unfold leafFold
    simpa using hm
  | cons c rest ih =>
    intro pname acc m res h hm hfresh
    unfold visitChildren at h
    have hfr : pname ∉ touchedNamesList rest := fun hc => hfresh (by
      unfold touchedNamesList
      exact List.mem_append.mpr (Or.inr hc))
    by_cases hig : ignoredTag c.tag
    · rw [if_pos hig] at h
      have hlf : leafFold m (c :: rest) = leafFold m rest := by
        unfold leafFold
        simp [leafStep, hig]
      rw [hlf]
      exact ih pname acc m res h hm hfr
    · rw [if_neg hig] at h
      by_cases hleaf : c.children.isEmpty
      · rw [if_pos hleaf] at h
        rw [hm] at h
        have hlf : leafFold m (c :: rest) =
            leafFold (dictInsert m c.tag (PyVal.s c.text)) rest := by
          unfold leafFold
          simp [leafStep, hig, hleaf]
        rw [hlf]
        exact ih pname _ _ res h (dictGet_insert_self acc pname _) hfr
      · rw [if_neg hleaf] at h
        cases hv : visit_items c acc with
        | none => rw [hv] at h; cases h
        | some acc2 =>
          rw [hv] at h
          have hnt : pname ∉ touchedNames c := fun hc => hfresh (by
            unfold touchedNamesList
            rw [if_neg (by simp [hig, hleaf])]
            exact List.mem_append.mpr (Or.inl hc))
          have hm2 : dictGet acc2 pname = some (PyVal.d m) := by
            rw [visit_items_untouched c acc acc2 hv pname hnt]
            exact hm
          have hlf : leafFold m (c :: rest) = leafFold m rest := by
            unfold leafFold
            simp [leafStep, hig, hleaf]
          rw [hlf]
          exact ih pname acc2 m res h hm2 hfr

theorem leafFold_length : ∀ (cs : List Xml) (m : Dict),
    (leafTags cs).Nodup → (∀ t ∈ leafTags cs, dictHasKey m t = false) →
    (leafFold m cs).length = m.length + (leafTags cs).length := by
  intro cs
  induction cs with
  | nil =>
    intro m _ _
    simp [leafFold, leafTags]
  | cons c rest ih =>
    intro m hnd hdisj
    by_cases hl : (!ignoredTag c.tag && c.children.isEmpty) = true
    · have hig : ignoredTag c.tag = false := by
        rcases hb : ignoredTag c.tag with _ | _
        · rfl
        · exfalso; rw [hb] at hl; simp at hl
      have hleaf : c.children.isEmpty = true := by
        rcases hb : c.children.isEmpty with _ | _
        · exfalso; rw [hb] at hl; simp at hl
        · rfl
      have htags : leafTags (c :: rest) = c.tag :: leafTags rest := by
        simp [leafTags, List.filter_cons, hl]
      rw [htags] at hnd hdisj
      have hlf : leafFold m (c :: rest) =
          leafFold (dictInsert m c.tag (PyVal.s c.text)) rest := by
        unfold leafFold
        simp [leafStep, hig, hleaf]
      rw [hlf, htags]
      have hcm : dictHasKey m c.tag = false := hdisj c.tag (by simp)
      have hnotin : c.tag ∉ leafTags rest := by
        have := List.nodup_cons.mp hnd
        exact this.1
      have hdisj' : ∀ t ∈ leafTags rest, dictHasKey (dictInsert m c.tag (PyVal.s c.text)) t = false := by
        intro t ht
        have htne : t ≠ c.tag := fun hc => hnotin (hc ▸ ht)
        rw [dictHasKey_insert_ne m c.tag t _ htne]
        exact hdisj t (by simp [ht])
      rw [ih _ (List.nodup_cons.mp hnd).2 hdisj']
      rw [dictInsert_length_new m c.tag _ hcm]
      simp only [List.length_cons]
      omega
    · have hl' : (!ignoredTag c.tag && c.children.isEmpty) = false :=
        Bool.eq_false_iff.mpr hl
      have htags : leafTags (c :: rest) = leafTags rest := by
        simp [leafTags, List.filter_cons, hl']
      have hstep : leafStep m c = m := by
        unfold leafStep
        by_cases hig : ignoredTag c.tag
        · rw [if_pos hig]
        · rw [if_neg hig]
          cases hx : c.children.isEmpty with
          | false => rw [if_neg (by simp)]
          | true =>
            exfalso
            apply hl
            simp [Bool.eq_false_iff.mpr hig, hx]
      have hlf : leafFold m (c :: rest) = leafFold m rest := by
        unfold leafFold
        simp only [List.foldl_cons, hstep]
      rw [hlf, htags]
      exact ih m (htags ▸ hnd) (fun t ht => hdisj t (htags.symm ▸ ht))

theorem visitChildren_nonleaf_present : ∀ (cs : List Xml) (acc res : Dict) (pname : Str),
    visitChildren pname cs acc = some res →
    ∀ c ∈ cs, ignoredTag c.tag = false → c.children.isEmpty = false →
    ∃ q, parentName c = some q ∧ (dictGet res q).isSome := by
  intro cs
  induction cs with
  | nil =>
    intro acc res pname _ c hc
    cases hc
  | cons c0 rest ih =>
    intro acc res pname h c hc hig hleaf
    unfold visitChildren at h
    by_cases hig0 : ignoredTag c0.tag
    · rw [if_pos hig0] at h
      rcases List.mem_cons.mp hc with rfl | hc'
      · rw [hig] at hig0; cases hig0
      · exact ih acc res pname h c hc' hig hleaf
    · rw [if_neg hig0] at h
      by_cases hleaf0 : c0.children.isEmpty
      · rw [if_pos hleaf0] at h
        cases hm : dictGet acc pname with
        | none => rw [hm] at h; cases h
        | some v =>
          cases v with
          | s tx => rw [hm] at h; cases h
          | d m =>
            rw [hm] at h
            rcases List.mem_cons.mp hc with rfl | hc'
            · rw [hleaf0] at hleaf; cases hleaf
            · exact ih _ res pname h c hc' hig hleaf
      · rw [if_neg hleaf0] at h
        cases hv : visit_items c0 acc with
        | none => rw [hv] at h; cases h
        | some acc2 =>
          rw [hv] at h
          rcases List.mem_cons.mp hc with rfl | hc'
          · rcases visit_items_some_name c acc acc2 hv with ⟨q, hq⟩
            refine ⟨q, hq, ?_⟩
            exact visitChildren_mono pname rest acc2 res h q
              (visit_items_name_present c acc acc2 q hq hv)
          · exact ih acc2 res pname h c hc' hig hleaf

/-- C2 (amended): for a node whose disambiguated name is fresh for its
subtrees and whose non-ignored leaf children have pairwise-distinct tags,
`visit_items` starting from an empty accumulator stores under the parent's
key exactly the leaf children (one entry each, so the parent's mapping has
exactly as many entries as there are non-ignored leaf children, last wins
under duplicates), while every non-ignored non-leaf child produces its own
entry at the top level of the accumulator — not nested under the parent's
key. -/
theorem visit_items_shape_invariant_amended (x : Xml) (p : Str) (res : Dict)
    (hname : parentName x = some p)
    (hrun : visit_items x [] = some res)
    (hfresh : p ∉ touchedNamesList x.children)
    (hnodup : (leafTags x.children).Nodup) :
    dictGet res p = some (PyVal.d (leafFold [] x.children)) ∧
    (leafFold [] x.children).length = (leafTags x.children).length ∧
    ∀ c ∈ nonLeafChildren x, ∃ q, parentName c = some q ∧ (dictGet res q).isSome := by
  cases x with
  | node t a s cs =>
    have hch : Xml.children (Xml.node t a s cs) = cs := rfl
    rw [hch] at hfresh hnodup ⊢
    unfold visit_items at hrun
    rw [hname] at hrun
    refine ⟨?_, ?_, ?_⟩
    · exact visitChildren_content cs p _ [] res hrun (dictGet_insert_self [] p _) hfresh
    · simpa using leafFold_length cs [] hnodup (fun t _ => rfl)
    · intro c hc
      have hmem := List.mem_filter.mp (by
        have : nonLeafChildren (Xml.node t a s cs) =
            cs.filter (fun c => !ignoredTag c.tag && !c.children.isEmpty) := rfl
        rw [this] at hc
        exact hc)
      have h1 : ignoredTag c.tag = false := by
        rcases hb : ignoredTag c.tag with _ | _
        · rfl
        · exfalso
          have := hmem.2
          rw [hb] at this
          simp at this
      have h2 : c.children.isEmpty = false := by
        rcases hb : c.children.isEmpty with _ | _
        · rfl
        · exfalso
          have := hmem.2
          rw [hb] at this
          simp at this
      exact visitChildren_nonleaf_present cs _ res p hrun c hmem.1 h1 h2

/-- Witness for the amended C2 at the concrete node
`<A><B>b</B><C><D>d</D></C></A>`. -/
theorem visit_items_shape_invariant_amended_witness :
    dictGet
        [(("A".toList : Str), PyVal.d [(("B".toList : Str), PyVal.s (some ("b".toList)))]),
         (("C".toList : Str), PyVal.d [(("D".toList : Str), PyVal.s (some ("d".toList)))])]
        ("A".toList) =
      some (PyVal.d (leafFold [] (Xml.children xmlNodeTop))) ∧
    (leafFold [] (Xml.children xmlNodeTop)).length = (leafTags (Xml.children xmlNodeTop)).length ∧
    ∀ c ∈ nonLeafChildren xmlNodeTop,
      ∃ q, parentName c = some q ∧
        (dictGet
          [(("A".toList : Str), PyVal.d [(("B".toList : Str), PyVal.s (some ("b".toList)))]),
           (("C".toList : Str), PyVal.d [(("D".toList : Str), PyVal.s (some ("d".toList)))])]
          q).isSome :=
  visit_items_shape_invariant_amended xmlNodeTop ("A".toList) _
    (by rfl) (by rfl) (by decide) (by decide)

/-! ## Further association-list lemmas -/

theorem dictHasKey_append {α : Type} (a b : List (Str × α)) (k : Str) :
    dictHasKey (a ++ b) k = (dictHasKey a k || dictHasKey b k) := by
  induction a with
  | nil => simp
  | cons p rest ih =>
    by_cases hp : p.1 = k <;> simp [hp, ih]

theorem mapUpdate_id_of_not_hasKey {α : Type} (d : List (Str × α)) (k : Str) (v : α)
    (h : dictHasKey d k = false) :
    d.map (fun p => if p.1 = k then (k, v) else p) = d := by
  induction d with
  | nil => rfl
  | cons p rest ih =>
    have hp : p.1 ≠ k := by
      intro hc
      rw [dictHasKey_cons, hc] at h
      simp at h
    have hr : dictHasKey rest k = false := by
      rcases hb : dictHasKey rest k with _ | _
      · rfl
      · rw [dictHasKey_cons, hb] at h
        simp at h
    simp only [List.map_cons, if_neg hp, ih hr]

theorem dictGet_append_right_new {α : Type} (g : List (Str × α)) (k : Str) (v : α)
    (hg : dictHasKey g k = false) : dictGet (g ++ [(k, v)]) k = some v := by
  rw [dictGet_append, dictGet_eq_none_of_not_hasKey g k hg]
  simp [Option.orElse]

theorem dictInsert_append_new {α : Type} (g : List (Str × α)) (k : Str) (v v' : α)
    (hg : dictHasKey g k = false) :
    dictInsert (g ++ [(k, v)]) k v' = g ++ [(k, v')] := by
  unfold dictInsert
  have hh : dictHasKey (g ++ [(k, v)]) k = true := by
    rw [dictHasKey_append]
    simp
  rw [if_pos hh, List.map_append, mapUpdate_id_of_not_hasKey g k v' hg]
  simp

theorem dictGet_delAll_self {α : Type} (d : List (Str × α)) (k : Str) :
    dictGet (dictDelAll d k) k = none := by
  induction d with
  | nil => rfl
  | cons p rest ih =>
    unfold dictDelAll at ih ⊢
    rw [List.filter_cons]
    by_cases hp : p.1 = k
    · simp [hp, ih]
    · simp [hp, ih]

theorem dictGet_delAll_ne {α : Type} (d : List (Str × α)) (k k' : Str)
    (hne : k' ≠ k) : dictGet (dictDelAll d k) k' = dictGet d k' := by
  induction d with
  | nil => rfl
  | cons p rest ih =>
    unfold dictDelAll at ih ⊢
    rw [List.filter_cons]
    by_cases hp : p.1 = k
    · have hp' : p.1 ≠ k' := by rw [hp]; exact fun hc => hne hc.symm
      rw [if_neg (by simp [hp])]
      rw [ih, dictGet_cons, if_neg hp']
    · rw [if_pos (by simp [hp])]
      rw [dictGet_cons, dictGet_cons]
      by_cases hpk : p.1 = k'
      · rw [if_pos hpk, if_pos hpk]
      · rw [if_neg hpk, if_neg hpk, ih]

/-! ## `replace` lemmas -/

theorem replaceGo_skip (pat repl : Str) : ∀ (u s : Str),
    replaceGo pat repl u.length (u ++ s) = replaceGo pat repl 0 s := by
  intro u
  induction u with
  | nil => intro s; rfl
  | cons c rest ih => intro s; exact ih s

theorem replaceGo_no_occurrence (pat repl : Str) : ∀ s, containsSeq pat s = false →
    replaceGo pat repl 0 s = s := by
  intro s
  induction s with
  | nil => intro _; rfl
  | cons c rest ih =>
    intro h
    unfold containsSeq at h
    have h1 : listStartsWith pat (c :: rest) = false := by
      rcases hb : listStartsWith pat (c :: rest) with _ | _
      · rfl
      · rw [hb] at h; simp at h
    have h2 : containsSeq pat rest = false := by
      rcases hb : containsSeq pat rest with _ | _
      · rfl
      · rw [hb] at h; simp at h
    unfold replaceGo
    rw [if_neg (by simp [h1])]
    rw [ih h2]

theorem pyReplaceSeq_del_prefix (pat tail : Str) (hne : pat ≠ [])
    (h : containsSeq pat tail = false) :
    pyReplaceSeq pat [] (pat ++ tail) = tail := by
  unfold pyReplaceSeq
  cases pat with
  | nil => exact absurd rfl hne
  | cons c t =>
    have hsw : listStartsWith (c :: t) (c :: (t ++ tail)) = true :=
      listStartsWith_refl_append (c :: t) tail
    have hred : (c :: t) ++ tail = c :: (t ++ tail) := rfl
    rw [hred]
    unfold replaceGo
    rw [if_pos (by simp [hsw])]
    have hlen : (c :: t).length - 1 = t.length := by simp
    rw [hlen, replaceGo_skip, replaceGo_no_occurrence (c :: t) [] tail h]
    simp

/-! ## C5: the derived energy axis -/

/-- C5: for every channel list and normalized tree whose `TRTSpectrumHeader`
holds float-parseable `CalibAbs` and `CalibLin` fields, the derived energy
axis has exactly `floor(len(channels)/2)` entries with
`energy[i] = (i+1)*calibLin + calibAbs`. -/
theorem make_energy_dataset_spec (edx hdr : Dict) (channels : List Int)
    (sa sl : Str) (a l : ℚ)
    (h1 : dictGet edx ("TRTSpectrumHeader".toList) = some (PyVal.d hdr))
    (h2 : dictGet hdr ("CalibAbs".toList) = some (PyVal.s (some sa)))
    (h3 : parseFloat sa = some a)
    (h4 : dictGet hdr ("CalibLin".toList) = some (PyVal.s (some sl)))
    (h5 : parseFloat sl = some l) :
    make_energy_dataset edx channels =
      some ((List.range (channels.length / 2)).map (fun i : ℕ => ((i : ℚ) + 1) * l + a)) ∧
    ((List.range (channels.length / 2)).map
      (fun i : ℕ => ((i : ℚ) + 1) * l + a)).length = channels.length / 2 := by
  have hca : convertFloat (some sa) = Scalar.num a := by
    simp only [convertFloat, h3]
  have hcl : convertFloat (some sl) = Scalar.num l := by
    simp only [convertFloat, h5]
  constructor
  · simp only [make_energy_dataset, h1, h2, h4, hca, hcl]
  · rw [List.length_map, List.length_range]

/-- Witness for C5: channels `[0,1,2,3,4,5]`, `CalibAbs = "0.0"`,
`CalibLin = "2.0"` give the energy axis `[2.0, 4.0, 6.0]` (3 = 6//2
entries). -/
theorem make_energy_dataset_spec_witness :
    make_energy_dataset exC5edx [0, 1, 2, 3, 4, 5] = some [2, 4, 6] := by
  have h := make_energy_dataset_spec exC5edx exC5hdr [0, 1, 2, 3, 4, 5]
    ("0.0".toList) ("2.0".toList)
    ((digitsToNat ("0".toList) : ℚ) +
      (digitsToNat ("0".toList) : ℚ) / 10 ^ ("0".toList).length)
    ((digitsToNat ("2".toList) : ℚ) +
      (digitsToNat ("0".toList) : ℚ) / 10 ^ ("0".toList).length)
    rfl rfl rfl rfl rfl
  rw [h.1]
  have e0 : digitsToNat ("0".toList) = 0 := rfl
  have e2 : digitsToNat ("2".toList) = 2 := rfl
  have el : ("0".toList).length = 1 := rfl
  rw [e0, e2, el]
  norm_num [List.range_succ]

/-! ## C6: percent scaling and unit attributes -/

theorem setDSAttr_append_new (g : Entries) (k : Str) (v : Scalar)
    (attrs : List (Str × Str)) (a u : Str) (hg : dictHasKey g k = false) :
    setDSAttr (g ++ [(k, H5.ds v attrs)]) k a u =
      some (g ++ [(k, H5.ds v (dictInsert attrs a u))]) := by
  unfold setDSAttr
  rw [dictGet_append_right_new g k (H5.ds v attrs) hg]
  show some (dictInsert (g ++ [(k, H5.ds v attrs)]) k (H5.ds v (dictInsert attrs a u))) = _
  rw [dictInsert_append_new g k _ _ hg]

/-- C6: for every leaf field named `AtomPercent` or `MassPercent` whose text
parses as a float, the store writer stores the parsed value scaled ×100 and
attaches the unit attribute returned by `get_units` (`at.%` for
`AtomPercent`, `mass.%` for `MassPercent`). -/
theorem percent_scaling_units (g : Entries) (subkey s : Str) (q : ℚ)
    (hk : subkey = "AtomPercent".toList ∨ subkey = "MassPercent".toList)
    (hq : parseFloat s = some q)
    (hg : dictHasKey g subkey = false) :
    ∃ u, get_units subkey = some u ∧
      writeLeaf g subkey (PyVal.s (some s)) =
        some (g ++ [(subkey, H5.ds (Scalar.num (q * 100)) [("units".toList, u)])]) ∧
      (subkey = "AtomPercent".toList → u = "at.%".toList) ∧
      (subkey = "MassPercent".toList → u = "mass.%".toList) := by
  have hconv : convertFloat (some s) = Scalar.num q := by
    simp only [convertFloat, hq]
  have hsto : (if subkey = "AtomPercent".toList ∨ subkey = "MassPercent".toList then
      scalarTimes100 (convertFloat (some s))
    else some (convertFloat (some s))) = some (Scalar.num (q * 100)) := by
    rw [if_pos hk, hconv]
    rfl
  have hds : createDS g subkey (Scalar.num (q * 100)) =
      some (g ++ [(subkey, H5.ds (Scalar.num (q * 100)) [])]) := by
    unfold createDS dictCreate
    rw [if_neg (by simp [hg])]
  have hwl : writeLeaf g subkey (PyVal.s (some s)) =
      (match get_units subkey with
       | some u =>
         setDSAttr (g ++ [(subkey, H5.ds (Scalar.num (q * 100)) [])]) subkey
           ("units".toList) u
       | none => some (g ++ [(subkey, H5.ds (Scalar.num (q * 100)) [])])) := by
    simp only [writeLeaf, hsto, hds]
  rcases hk with hk | hk
  · subst hk
    have hu : get_units ("AtomPercent".toList) = some ("at.%".toList) := by decide
    refine ⟨"at.%".toList, hu, ?_, fun _ => rfl, fun hc => absurd hc (by decide)⟩
    rw [hwl, hu]
    show setDSAttr _ _ _ _ = _
    rw [setDSAttr_append_new g _ _ [] _ _ hg]
    rfl
  · subst hk
    have hu : get_units ("MassPercent".toList) = some ("mass.%".toList) := by decide
    refine ⟨"mass.%".toList, hu, ?_, fun hc => absurd hc (by decide), fun _ => rfl⟩
    rw [hwl, hu]
    show setDSAttr _ _ _ _ = _
    rw [setDSAttr_append_new g _ _ [] _ _ hg]
    rfl

/-- Witness for C6: ingesting `AtomPercent` with raw text `"0.42"` stores
`42.0` (the parsed fraction scaled ×100) with unit attribute `at.%`. -/
theorem percent_scaling_units_witness :
    get_units ("AtomPercent".toList) = some ("at.%".toList) ∧
    writeLeaf [] ("AtomPercent".toList) (PyVal.s (some ("0.42".toList))) =
      some [(("AtomPercent".toList : Str),
        H5.ds (Scalar.num (((digitsToNat ("0".toList) : ℚ) +
            (digitsToNat ("42".toList) : ℚ) / 10 ^ ("42".toList).length) * 100))
          [("units".toList, "at.%".toList)])] ∧
    ((digitsToNat ("0".toList) : ℚ) +
        (digitsToNat ("42".toList) : ℚ) / 10 ^ ("42".toList).length) * 100 = 42 := by
  obtain ⟨u, hu, hw, hA, _⟩ := percent_scaling_units [] ("AtomPercent".toList)
    ("0.42".toList)
    ((digitsToNat ("0".toList) : ℚ) +
      (digitsToNat ("42".toList) : ℚ) / 10 ^ ("42".toList).length)
    (Or.inl rfl) rfl rfl
  have huA := hA rfl
  subst huA
  refine ⟨hu, hw, ?_⟩
  have e0 : digitsToNat ("0".toList) = 0 := rfl
  have e42 : digitsToNat ("42".toList) = 42 := rfl
  have el : ("42".toList).length = 2 := rfl
  rw [e0, e42, el]
  norm_num

/-! ## C7: the element rename/move branch -/

/-- C7: when the outer loop meets a non-empty mapping whose key begins with
`TRTPSEElement`, the writer moves the results subgroup named
`Result <symbol>` (located via the mapping's `Element` field) to the new name
`Element <name>` derived from the key, deletes the group under the old name,
removes the redundant `Atom` symbol field from the moved group, and then
writes the mapping's leaves into the moved group. -/
theorem element_rename_move (st : WState) (name sym : Str) (m : Dict)
    (gOld : Entries) (gattrs : List (Str × Str)) (g2 : Entries)
    (hElem : dictGet m ("Element".toList) = some (PyVal.s (some sym)))
    (hOld : dictGet st.result ("Result ".toList ++ sym) = some (H5.grp gOld gattrs))
    (hAtom : dictHasKey gOld ("Atom".toList) = true)
    (hNew : dictHasKey st.result ("Element ".toList ++ name) = false)
    (hNameFresh : containsSeq ("TRTPSEElement ".toList) name = false)
    (hFold : (get_all_keys m).foldlM (fun acc p => writeLeaf acc p.1 p.2)
        (dictDelAll gOld ("Atom".toList)) = some g2) :
    ∃ st', processPair st ("TRTPSEElement ".toList ++ name, PyVal.d m) = some st' ∧
      st'.instrument = st.instrument ∧
      dictGet st'.result ("Element ".toList ++ name) = some (H5.grp g2 gattrs) ∧
      dictGet st'.result ("Result ".toList ++ sym) = none := by
  have hrep : pyReplaceSeq ("TRTPSEElement ".toList) []
      ("TRTPSEElement ".toList ++ name) = name :=
    pyReplaceSeq_del_prefix ("TRTPSEElement ".toList) name (by decide) hNameFresh
  have hm : m.isEmpty = false := by
    cases m with
    | nil => cases hElem
    | cons p rest => rfl
  have hc1 : (listStartsWith ("Result".toList) ("TRTPSEElement ".toList ++ name) ||
      decide (("TRTPSEElement ".toList ++ name) = "TRTResult".toList)) = false := rfl
  have hc2 : listStartsWith ("ExtResults".toList) ("TRTPSEElement ".toList ++ name) =
      false := rfl
  have hc3 : listStartsWith ("TRTPSEElement".toList) ("TRTPSEElement ".toList ++ name) =
      true := rfl
  have hne : ("Element ".toList ++ name) ≠ ("Result ".toList ++ sym) := by
    intro hc
    have h1 : List.headD ("Element ".toList ++ name) ' ' = 'E' := rfl
    rw [hc] at h1
    have h2 : List.headD ("Result ".toList ++ sym) ' ' = 'R' := rfl
    exact absurd (h1.symm.trans h2) (by decide)
  have hne' : ("Result ".toList ++ sym) ≠ ("Element ".toList ++ name) :=
    fun hc => hne hc.symm
  have hOldKey : dictHasKey st.result ("Result ".toList ++ sym) = true :=
    (dictHasKey_iff_get_isSome _ _).mpr (by rw [hOld]; rfl)
  have hCreate : dictCreate st.result ("Element ".toList ++ name)
      (H5.grp gOld gattrs) =
      some (st.result ++ [("Element ".toList ++ name, H5.grp gOld gattrs)]) := by
    unfold dictCreate
    rw [if_neg (by rw [hNew]; decide)]
  have hr1Key : dictHasKey
      (st.result ++ [("Element ".toList ++ name, H5.grp gOld gattrs)])
      ("Result ".toList ++ sym) = true := by
    rw [dictHasKey_append, hOldKey]
    rfl
  have hDel1 : dictDel
      (st.result ++ [("Element ".toList ++ name, H5.grp gOld gattrs)])
      ("Result ".toList ++ sym) =
      some (dictDelAll
        (st.result ++ [("Element ".toList ++ name, H5.grp gOld gattrs)])
        ("Result ".toList ++ sym)) := by
    unfold dictDel
    rw [if_pos hr1Key]
  have hr2Get : dictGet
      (dictDelAll (st.result ++ [("Element ".toList ++ name, H5.grp gOld gattrs)])
        ("Result ".toList ++ sym))
      ("Element ".toList ++ name) = some (H5.grp gOld gattrs) := by
    rw [dictGet_delAll_ne _ _ _ hne]
    exact dictGet_append_right_new st.result _ _ hNew
  have hDelAtom : dictDel gOld ("Atom".toList) =
      some (dictDelAll gOld ("Atom".toList)) := by
    unfold dictDel
    rw [if_pos hAtom]
  have hdisp : dispatch st ("TRTPSEElement ".toList ++ name) m =
      some (WState.mk st.instrument
          (dictInsert
            (dictDelAll (st.result ++ [("Element ".toList ++ name, H5.grp gOld gattrs)])
              ("Result ".toList ++ sym))
            ("Element ".toList ++ name)
            (H5.grp (dictDelAll gOld ("Atom".toList)) gattrs)),
        Target.inResult ("Element ".toList ++ name)) := by
    simp only [dispatch, hc1, hc2, hc3, hrep, hElem, hOld, hCreate, hDel1, hr2Get,
      hDelAtom, Bool.false_eq_true, if_false, if_true, fstrOf]
  have hTgt : getTargetEntries
      (WState.mk st.instrument
        (dictInsert
          (dictDelAll (st.result ++ [("Element ".toList ++ name, H5.grp gOld gattrs)])
            ("Result ".toList ++ sym))
          ("Element ".toList ++ name)
          (H5.grp (dictDelAll gOld ("Atom".toList)) gattrs)))
      (Target.inResult ("Element ".toList ++ name)) =
      some (dictDelAll gOld ("Atom".toList)) := by
    simp only [getTargetEntries]
    rw [dictGet_insert_self]
  have hSet : setTargetEntries
      (WState.mk st.instrument
        (dictInsert
          (dictDelAll (st.result ++ [("Element ".toList ++ name, H5.grp gOld gattrs)])
            ("Result ".toList ++ sym))
          ("Element ".toList ++ name)
          (H5.grp (dictDelAll gOld ("Atom".toList)) gattrs)))
      (Target.inResult ("Element ".toList ++ name)) g2 =
      some (WState.mk st.instrument
        (dictInsert
          (dictInsert
            (dictDelAll (st.result ++ [("Element ".toList ++ name, H5.grp gOld gattrs)])
              ("Result ".toList ++ sym))
            ("Element ".toList ++ name)
            (H5.grp (dictDelAll gOld ("Atom".toList)) gattrs))
          ("Element ".toList ++ name) (H5.grp g2 gattrs))) := by
    simp only [setTargetEntries, setGrpEntries]
    rw [dictGet_insert_self]
  refine ⟨WState.mk st.instrument
      (dictInsert
        (dictInsert
          (dictDelAll (st.result ++ [("Element ".toList ++ name, H5.grp gOld gattrs)])
            ("Result ".toList ++ sym))
          ("Element ".toList ++ name)
          (H5.grp (dictDelAll gOld ("Atom".toList)) gattrs))
        ("Element ".toList ++ name) (H5.grp g2 gattrs)), ?_, rfl, ?_, ?_⟩
  · show processPair st ("TRTPSEElement ".toList ++ name, PyVal.d m) = _
    simp only [processPair, hm, Bool.false_eq_true, if_false, hdisp, hTgt, hFold, hSet]
  · show dictGet (dictInsert _ ("Element ".toList ++ name) (H5.grp g2 gattrs)) _ = _
    rw [dictGet_insert_self]
  · show dictGet (dictInsert _ ("Element ".toList ++ name) (H5.grp g2 gattrs)) _ = _
    rw [dictGet_insert_ne _ _ _ _ hne']
    rw [dictGet_insert_ne _ _ _ _ hne']
    exact dictGet_delAll_self _ _

/-- Witness for C7 at a concrete store holding `Result 26` and the pair
`("TRTPSEElement Fe", {"Element": "26"})`. -/
theorem element_rename_move_witness :
    ∃ st', processPair exC7st
        ("TRTPSEElement ".toList ++ "Fe".toList, PyVal.d exC7m) = some st' ∧
      st'.instrument = exC7st.instrument ∧
      dictGet st'.result ("Element ".toList ++ "Fe".toList) =
        some (H5.grp [(("Element".toList : Str),
          H5.ds (Scalar.num ((digitsToNat ("26".toList) : ℚ))) [])] []) ∧
      dictGet st'.result ("Result ".toList ++ "26".toList) = none :=
  element_rename_move exC7st ("Fe".toList) ("26".toList) exC7m exC7gOld []
    [(("Element".toList : Str), H5.ds (Scalar.num ((digitsToNat ("26".toList) : ℚ))) [])]
    rfl rfl rfl rfl (by decide) rfl

/-! ## Claim theorems: C4, C8, C10 -/

/-- C4: for every scan identity and parameters, `get_wafer_positions` returns
exactly `((x_idx-1)*step_x + start_x, (y_idx-1)*step_y + start_y)`, and the
default call uses `step=5`, `start=-40` on each axis; the result depends only
on these inputs. -/
theorem get_wafer_positions_spec (x_idx y_idx step_x step_y start_x start_y : Int) :
    get_wafer_positions (x_idx, y_idx) step_x step_y start_x start_y =
      waferPositionSpec x_idx y_idx step_x step_y start_x start_y ∧
    get_wafer_positions_default (x_idx, y_idx) =
      waferPositionSpec x_idx y_idx 5 5 (-40) (-40) :=
  ⟨rfl, rfl⟩

/-- C8: with edge exclusion enabled, `get_full_dataset` skips a position
exactly when `|x| + |y| >= 60` (strict policy) while `get_measurement_data`
skips exactly when `|x| + |y| > 60` (non-strict policy); in particular the
boundary position `(30, 30)` with `|x|+|y| = 60` is excluded by the first
path and included by the second, so the two paths use different comparators
for the same cutoff. -/
theorem edge_exclusion_comparators (x y : ℚ) :
    (full_dataset_skip true (x, y) = true ↔ |x| + |y| ≥ 60) ∧
    (measurement_skip true (x, y) = true ↔ |x| + |y| > 60) ∧
    (∀ ps : List (ℚ × ℚ), (x, y) ∈ get_full_dataset_positions ps true ↔
      ((x, y) ∈ ps ∧ |x| + |y| < 60)) ∧
    (∀ ps : List (ℚ × ℚ), (x, y) ∈ get_measurement_positions ps true ↔
      ((x, y) ∈ ps ∧ |x| + |y| ≤ 60)) ∧
    (full_dataset_skip true ((30 : ℚ), (30 : ℚ)) = true ∧
     measurement_skip true ((30 : ℚ), (30 : ℚ)) = false) := by
  have hfull : ∀ a b : ℚ, full_dataset_skip true (a, b) = true ↔ |a| + |b| ≥ 60 := by
    intro a b; simp [full_dataset_skip]
  have hmeas : ∀ a b : ℚ, measurement_skip true (a, b) = true ↔ |a| + |b| > 60 := by
    intro a b; simp [measurement_skip]
  refine ⟨hfull x y, hmeas x y, ?_, ?_, ?_, ?_⟩
  · intro ps
    simp only [get_full_dataset_positions, List.mem_filter, Bool.not_eq_true']
    constructor
    · rintro ⟨h1, h2⟩
      refine ⟨h1, ?_⟩
      by_contra hc
      rw [not_lt] at hc
      rw [(hfull x y).mpr hc] at h2
      cases h2
    · rintro ⟨h1, h2⟩
      refine ⟨h1, ?_⟩
      rcases hb : full_dataset_skip true (x, y) with _ | _
      · rfl
      · exact absurd ((hfull x y).mp hb) (not_le.mpr h2)
  · intro ps
    simp only [get_measurement_positions, List.mem_filter, Bool.not_eq_true']
    constructor
    · rintro ⟨h1, h2⟩
      refine ⟨h1, ?_⟩
      by_contra hc
      rw [not_le] at hc
      rw [(hmeas x y).mpr hc] at h2
      cases h2
    · rintro ⟨h1, h2⟩
      refine ⟨h1, ?_⟩
      rcases hb : measurement_skip true (x, y) with _ | _
      · rfl
      · exact absurd ((hmeas x y).mp hb) (not_lt.mpr h2)
  · exact (hfull 30 30).mpr (by norm_num)
  · rcases hb : measurement_skip true ((30 : ℚ), (30 : ℚ)) with _ | _
    · rfl
    · have := (hmeas 30 30).mp hb
      norm_num at this

/-- C10: when `data_type` (lower-cased) is none of `edx`, `moke`, `xrd` or
`all`, `get_measurement_data` does not raise: its validation step returns the
integer `1` (`Sum.inl 1`) instead of going on to build a data tree, so callers
receive a value of a different type rather than an exception. -/
theorem get_measurement_data_invalid_type (data_type : Str)
    (h : pyLower data_type ∉
      ["all".toList, "edx".toList, "moke".toList, "xrd".toList]) :
    get_measurement_data_dispatch data_type = Sum.inl 1 := by
  unfold get_measurement_data_dispatch
  have h1 : pyLower data_type ≠ "all".toList := by
    intro hc; exact h (by simp [hc])
  have h2 : pyLower data_type ∉ (["edx".toList, "moke".toList, "xrd".toList] : List Str) := by
    intro hc
    simp only [List.mem_cons, List.mem_singleton, List.not_mem_nil] at hc
    rcases hc with hc | hc | hc
    · exact h (by simp [hc])
    · exact h (by simp [hc])
    · simp at hc
      exact h (by simp [hc])
  rw [if_neg h1, if_pos h2]

/-- Witness for C10 at the concrete invalid input `"FOO"`. -/
theorem get_measurement_data_invalid_type_witness :
    get_measurement_data_dispatch ("FOO".toList) = Sum.inl 1 :=
  get_measurement_data_invalid_type ("FOO".toList) (by decide)

/-! ## C9: the NaN fill for coordinates absent from a source category group -/

theorem foldlM_nil_opt {α β : Type} (f : β → α → Option β) (b : β) :
    List.foldlM f b [] = some b := rfl

theorem foldlM_cons_opt {α β : Type} (f : β → α → Option β) (b : β) (a : α)
    (l : List α) :
    List.foldlM f b (a :: l) = Option.bind (f b a) (fun x => List.foldlM f x l) := rfl

theorem foldlM_single_opt {α β : Type} (f : β → α → Option β) (b : β) (a : α) :
    List.foldlM f b [a] = f b a := by
  rw [foldlM_cons_opt]
  cases f b a <;> rfl

theorem createDS_new (node : Entries) (k : Str) (v : Scalar)
    (h : dictHasKey node k = false) :
    createDS node k v = some (node ++ [(k, H5.ds v [])]) := by
  unfold createDS dictCreate
  rw [if_neg (by rw [h]; exact Bool.false_ne_true)]

theorem nanFillEDX_single (dt ek : Str) (ev : H5) (node : Entries)
    (hek : containsSeq ("Element".toList) ek = true)
    (hnew : dictHasKey node (afterLastChar ' ' ek) = false) :
    nanFillEDX dt [(ek, ev)] node =
      some (node ++ [(afterLastChar ' ' ek, H5.ds Scalar.nan
        [("units".toList, "at.%".toList), ("HT_type".toList, dt)])]) := by
  have h1 := createDS_new node (afterLastChar ' ' ek) Scalar.nan hnew
  have h2 : setDSAttr (node ++ [(afterLastChar ' ' ek, H5.ds Scalar.nan [])])
      (afterLastChar ' ' ek) ("units".toList) ("at.%".toList) =
      some (node ++ [(afterLastChar ' ' ek, H5.ds Scalar.nan
        [("units".toList, "at.%".toList)])]) := by
    rw [setDSAttr_append_new node _ Scalar.nan [] _ _ hnew]
    rfl
  have h3 : setDSAttr (node ++ [(afterLastChar ' ' ek, H5.ds Scalar.nan
        [("units".toList, "at.%".toList)])])
      (afterLastChar ' ' ek) ("HT_type".toList) dt =
      some (node ++ [(afterLastChar ' ' ek, H5.ds Scalar.nan
        [("units".toList, "at.%".toList), ("HT_type".toList, dt)])]) := by
    rw [setDSAttr_append_new node _ Scalar.nan
      [("units".toList, "at.%".toList)] _ _ hnew]
    rfl
  unfold nanFillEDX
  rw [foldlM_single_opt]
  simp only [hek, if_true, h1, h2, h3]

theorem nanFillMOKE_single (dt : Str) (cv : H5) (node : Entries)
    (hnew : dictHasKey node ("coercivity_m0".toList) = false) :
    nanFillMOKE dt [("coercivity_m0".toList, cv)] node =
      some (node ++ [("coercivity_m0".toList, H5.ds Scalar.nan
        [("units".toList, "Tesla (T)".toList), ("HT_type".toList, dt)])]) := by
  have h1 := createDS_new node ("coercivity_m0".toList) Scalar.nan hnew
  have h2 : setDSAttr (node ++ [("coercivity_m0".toList, H5.ds Scalar.nan [])])
      ("coercivity_m0".toList) ("units".toList) ("Tesla (T)".toList) =
      some (node ++ [("coercivity_m0".toList, H5.ds Scalar.nan
        [("units".toList, "Tesla (T)".toList)])]) := by
    rw [setDSAttr_append_new node _ Scalar.nan [] _ _ hnew]
    rfl
  have h3 : setDSAttr (node ++ [("coercivity_m0".toList, H5.ds Scalar.nan
        [("units".toList, "Tesla (T)".toList)])])
      ("coercivity_m0".toList) ("HT_type".toList) dt =
      some (node ++ [("coercivity_m0".toList, H5.ds Scalar.nan
        [("units".toList, "Tesla (T)".toList), ("HT_type".toList, dt)])]) := by
    rw [setDSAttr_append_new node _ Scalar.nan
      [("units".toList, "Tesla (T)".toList)] _ _ hnew]
    rfl
  unfold nanFillMOKE
  rw [foldlM_single_opt]
  simp only [eq_self_iff_true, if_true, h1, h2, h3]

theorem nanFillXRD_single (ph : Str) (pg : Entries) (pa phA : List (Str × Str))
    (node : Entries)
    (hA : dictHasKey pg ("A".toList) = true)
    (hB : dictHasKey pg ("B".toList) = false)
    (hC : dictHasKey pg ("C".toList) = false)
    (hPF : dictHasKey pg ("phase_fraction".toList) = false)
    (hnew : dictHasKey node (ph ++ '_' :: "A".toList) = false) :
    nanFillXRD [("phases".toList, H5.grp [(ph, H5.grp pg pa)] phA)] node =
      some (node ++ [(ph ++ '_' :: "A".toList, H5.ds Scalar.nan [])]) := by
  have h1 := createDS_new node (ph ++ '_' :: "A".toList) Scalar.nan hnew
  unfold nanFillXRD
  simp only [dictGet_cons, dictGet_nil, eq_self_iff_true, if_true]
  rw [foldlM_single_opt]
  simp only [saving_result_list, foldlM_cons_opt, foldlM_nil_opt, hA, hB, hC, hPF,
    if_true, Bool.false_eq_true, if_false, h1, Option.bind]

/-- The common absent-coordinate prefix of the per-coordinate loop body. -/
theorem processCoordRest_absent (gEnt save : Entries) (dt coord : Str)
    (node node2 zE refR : Entries) (nattrs za ra : List (Str × Str))
    (hAbsent : dictHasKey gEnt coord = false)
    (hSave : dictGet save coord = some (H5.grp node nattrs))
    (hz : dictGet gEnt ("(0.0,0.0)".toList) = some (H5.grp zE za))
    (hr : dictGet zE ("results".toList) = some (H5.grp refR ra))
    (hfill : (if dt = "edx".toList then nanFillEDX dt refR node
              else if dt = "moke".toList then nanFillMOKE dt refR node
              else if dt = "xrd".toList then nanFillXRD refR node
              else some node) = some node2) :
    processCoordRest gEnt dt save coord =
      some (dictInsert save coord (H5.grp node2 nattrs)) := by
  unfold processCoordRest
  rw [if_pos (show (!dictHasKey gEnt coord) = true by rw [hAbsent]; rfl)]
  simp only [hSave, hz, hr, hfill]

/-- Coordinates absent from both the source group and the save file are
skipped entirely. -/
theorem processCoord_skip (gEnt save : Entries) (dt coord : Str)
    (h1 : dictHasKey save coord = false)
    (h2 : dictGet gEnt coord = none) :
    processCoord gEnt dt save coord = some save := by
  unfold processCoord
  rw [if_neg (by rw [h1]; exact Bool.false_ne_true)]
  simp only [h2]

/-- C9 (amended): for a grid coordinate absent from a source category group
but already present in the output store, the per-coordinate loop body writes
NaN fill datasets whose units are NOT copied from the reference `(0,0)`
position: the EDX element fill carries the hardcoded unit `at.%`, the MOKE
coercivity fill carries the hardcoded unit `Tesla (T)`, and the XRD per-phase
fill carries no attributes at all (and only the lattice keys actually present
at the reference are filled) — whatever units the reference datasets hold;
and a coordinate absent from both the source group and the output store is
skipped entirely, with nothing written. -/
theorem simplified_dataset_fill_amended :
    (∀ (gEnt save node zE : Entries) (coord ek : Str) (ev : H5)
        (nattrs za ra : List (Str × Str)),
      dictHasKey gEnt coord = false →
      dictGet save coord = some (H5.grp node nattrs) →
      dictGet gEnt ("(0.0,0.0)".toList) = some (H5.grp zE za) →
      dictGet zE ("results".toList) = some (H5.grp [(ek, ev)] ra) →
      containsSeq ("Element".toList) ek = true →
      dictHasKey node (afterLastChar ' ' ek) = false →
      processCoordRest gEnt ("edx".toList) save coord =
        some (dictInsert save coord (H5.grp
          (node ++ [(afterLastChar ' ' ek, H5.ds Scalar.nan
            [("units".toList, "at.%".toList), ("HT_type".toList, "edx".toList)])])
          nattrs))) ∧
    (∀ (gEnt save node zE : Entries) (coord : Str) (cv : H5)
        (nattrs za ra : List (Str × Str)),
      dictHasKey gEnt coord = false →
      dictGet save coord = some (H5.grp node nattrs) →
      dictGet gEnt ("(0.0,0.0)".toList) = some (H5.grp zE za) →
      dictGet zE ("results".toList) =
        some (H5.grp [("coercivity_m0".toList, cv)] ra) →
      dictHasKey node ("coercivity_m0".toList) = false →
      processCoordRest gEnt ("moke".toList) save coord =
        some (dictInsert save coord (H5.grp
          (node ++ [("coercivity_m0".toList, H5.ds Scalar.nan
            [("units".toList, "Tesla (T)".toList),
             ("HT_type".toList, "moke".toList)])])
          nattrs))) ∧
    (∀ (gEnt save node zE pg : Entries) (coord ph : Str)
        (nattrs za ra pa phA : List (Str × Str)),
      dictHasKey gEnt coord = false →
      dictGet save coord = some (H5.grp node nattrs) →
      dictGet gEnt ("(0.0,0.0)".toList) = some (H5.grp zE za) →
      dictGet zE ("results".toList) = some (H5.grp
        [("phases".toList, H5.grp [(ph, H5.grp pg pa)] phA)] ra) →
      dictHasKey pg ("A".toList) = true →
      dictHasKey pg ("B".toList) = false →
      dictHasKey pg ("C".toList) = false →
      dictHasKey pg ("phase_fraction".toList) = false →
      dictHasKey node (ph ++ '_' :: "A".toList) = false →
      processCoordRest gEnt ("xrd".toList) save coord =
        some (dictInsert save coord (H5.grp
          (node ++ [(ph ++ '_' :: "A".toList, H5.ds Scalar.nan [])]) nattrs))) ∧
    (∀ (gEnt save : Entries) (dt coord : Str),
      dictHasKey save coord = false →
      dictGet gEnt coord = none →
      processCoord gEnt dt save coord = some save) := by
  refine ⟨?_, ?_, ?_, ?_⟩
  · intro gEnt save node zE coord ek ev nattrs za ra hAbs hSave hz hr hek hnew
    exact processCoordRest_absent gEnt save ("edx".toList) coord node
      (node ++ [(afterLastChar ' ' ek, H5.ds Scalar.nan
        [("units".toList, "at.%".toList), ("HT_type".toList, "edx".toList)])])
      zE [(ek, ev)] nattrs za ra hAbs hSave hz hr
      (by rw [if_pos rfl]; exact nanFillEDX_single ("edx".toList) ek ev node hek hnew)
  · intro gEnt save node zE coord cv nattrs za ra hAbs hSave hz hr hnew
    exact processCoordRest_absent gEnt save ("moke".toList) coord node
      (node ++ [("coercivity_m0".toList, H5.ds Scalar.nan
        [("units".toList, "Tesla (T)".toList), ("HT_type".toList, "moke".toList)])])
      zE [("coercivity_m0".toList, cv)] nattrs za ra hAbs hSave hz hr
      (by rw [if_neg (by decide), if_pos rfl]
          exact nanFillMOKE_single ("moke".toList) cv node hnew)
  · intro gEnt save node zE pg coord ph nattrs za ra pa phA hAbs hSave hz hr hA hB hC hPF hnew
    exact processCoordRest_absent gEnt save ("xrd".toList) coord node
      (node ++ [(ph ++ '_' :: "A".toList, H5.ds Scalar.nan [])])
      zE [("phases".toList, H5.grp [(ph, H5.grp pg pa)] phA)] nattrs za ra
      hAbs hSave hz hr
      (by rw [if_neg (by decide), if_neg (by decide), if_pos rfl]
          exact nanFillXRD_single ph pg pa phA node hA hB hC hPF hnew)
  · intro gEnt save dt coord h1 h2
    exact processCoord_skip gEnt save dt coord h1 h2

/-- Witness for the amended C9 theorem at a concrete store. -/
theorem simplified_dataset_fill_amended_witness :
    processCoordRest
      [("(0.0,0.0)".toList, H5.grp
        [("results".toList, H5.grp [("Element Fe".toList, H5.grp [] [])] [])] [])]
      ("edx".toList)
      [("(-40.0,-40.0)".toList, H5.grp [] [])]
      ("(-40.0,-40.0)".toList) =
      some [("(-40.0,-40.0)".toList, H5.grp
        [("Fe".toList, H5.ds Scalar.nan
          [("units".toList, "at.%".toList), ("HT_type".toList, "edx".toList)])] [])] ∧
    processCoord [] ("edx".toList) [] ("(-40.0,-40.0)".toList) = some [] := by
  constructor
  · exact simplified_dataset_fill_amended.1
      [("(0.0,0.0)".toList, H5.grp
        [("results".toList, H5.grp [("Element Fe".toList, H5.grp [] [])] [])] [])]
      [("(-40.0,-40.0)".toList, H5.grp [] [])] []
      [("results".toList, H5.grp [("Element Fe".toList, H5.grp [] [])] [])]
      ("(-40.0,-40.0)".toList) ("Element Fe".toList) (H5.grp [] [])
      [] [] [] rfl rfl rfl rfl (by decide) rfl
  · exact simplified_dataset_fill_amended.2.2.2 [] [] ("edx".toList)
      ("(-40.0,-40.0)".toList) rfl rfl

/-- C9 (counterexample): in a concrete store whose reference `(0,0)` EDX
`AtomPercent` carries unit `frac` and whose reference XRD lattice constant
carries unit `Angstrom`, the NaN fill written at the absent coordinate
`(-40.0,-40.0)` has unit `at.%` (not `frac`) for the EDX element and no
units attribute at all (not `Angstrom`) for the XRD lattice constant —
refuting "units copied from the reference position". -/
theorem simplified_dataset_units_counterexample :
    ((((((dictGet (exRootP ("frac".toList)) ("b_edx".toList)).bind
      (fun g => grpGet g ("(0.0,0.0)".toList))).bind
      (fun g => grpGet g ("results".toList))).bind
      (fun g => grpGet g ("Element Fe".toList))).bind
      (fun g => grpGet g ("AtomPercent".toList))).bind
      (fun h => attrGet h ("units".toList))) = some ("frac".toList) ∧
    simplifiedFieldUnits (exRootP ("frac".toList)) ("(-40.0,-40.0)".toList)
      ("Fe".toList) = some ("at.%".toList) ∧
    some ("at.%".toList) ≠ some ("frac".toList) ∧
    xrdRefUnits (exRootP ("Angstrom".toList)) = some ("Angstrom".toList) ∧
    simplifiedField (exRootP ("Angstrom".toList)) ("(-40.0,-40.0)".toList)
      ("P1_A".toList) = some (H5.ds Scalar.nan []) ∧
    simplifiedFieldUnits (exRootP ("Angstrom".toList)) ("(-40.0,-40.0)".toList)
      ("P1_A".toList) = none := by
  have h5 : simplifiedField (exRootP ("Angstrom".toList)) ("(-40.0,-40.0)".toList)
      ("P1_A".toList) = some (H5.ds Scalar.nan []) := rfl
  refine ⟨rfl, rfl, by decide, rfl, h5, ?_⟩
  unfold simplifiedFieldUnits
  rw [h5]
  rfl

end ReadHdf5
